import Mathlib

/-!
Verification development for the chromecast-api discovery client
(`src/lib/client.js`).  The client's discovery core is shallowly embedded:
JS strings that may be null/undefined become `Option String`, the keyed
staging object `this._devices` becomes an association list, the public
array `this.devices` a `List`, and the event emitter an explicit event
list returned by each operation.
-/

namespace Chromecast

/-- A JS string field that may also be `null`/`undefined` (both mapped to
`none`). -/
abbrev JsStr := Option String

/-- JS truthiness of a string-or-nullish value: `null`, `undefined` and
the empty string are falsy, every other string is truthy. -/
def truthy : JsStr → Bool
  | none => false
  | some s => s ≠ ""

/-- JS loose inequality `!=` restricted to string-or-nullish values:
`null != undefined` is `false`, a string differs from `null`/`undefined`,
and two strings compare by contents. -/
def jsNeq : JsStr → JsStr → Bool
  | none, none => false
  | some a, some b => a ≠ b
  | none, some _ => true
  | some _, none => true

/-- JS `a || b` on string-or-nullish values (used for
`decodedData.fn || decodedData.n`). -/
def jsOrS (a b : JsStr) : JsStr := if truthy a then a else b

/-- JS object property read `obj[k]` (keys are unique, first binding wins). -/
def getKey {α : Type} : List (String × α) → String → Option α
  | [], _ => none
  | (k, v) :: rest, k' => if k = k' then some v else getKey rest k'

/-- JS object property write `obj[k] = v`: replace the binding in place if
the key exists, otherwise append it. -/
def setKey {α : Type} : List (String × α) → String → α → List (String × α)
  | [], k, v => [(k, v)]
  | (k', v') :: rest, k, v =>
    if k' = k then (k, v) :: rest else (k', v') :: setKey rest k v

/-- JS `delete obj[k]`. -/
def delKey {α : Type} : List (String × α) → String → List (String × α)
  | [], _ => []
  | (k', v') :: rest, k => if k' = k then rest else (k', v') :: delKey rest k

/-- A staged, not-yet-announced device fragment, as built by the object
literals at lines 210–215 (mDNS PTR) and 372–378 (SSDP) of
`src/lib/client.js`.  Fields a literal omits are `undefined` (`none`). -/
structure StagedDevice where
  uuid : JsStr
  discoveryName : JsStr
  friendlyName : JsStr
  host : JsStr
  manufacturer : JsStr
  modelName : JsStr
deriving DecidableEq, Repr

/-- Modelled from the spec: `src/lib/device.js` is not among the sources.
Per the spec's Device Record, the missing `Device` class stores the
constructor options of `client.js` lines 136–144 verbatim — identifier
(`uuid`), discovery-name (`name`), friendly-name, host, manufacturer,
model-name and a single last-seen timestamp — and its `close()` releases
the device's connection resources (recorded in this model as an explicit
`closed` action in the garbage collector's output). -/
structure Device where
  uuid : String
  name : JsStr
  friendlyName : JsStr
  host : JsStr
  manufacturer : JsStr
  modelName : JsStr
  lastSeen : Nat
deriving DecidableEq, Repr

/-- The client's discovery state: the internal staging table
`this._devices` (keyed by identifier) and the public registry array
`this.devices`. -/
structure ClientState where
  _devices : List (String × StagedDevice)
  devices : List Device
deriving DecidableEq, Repr

/-- Events emitted by the client, plus the bookkeeping action `closed d`
recording that the garbage collector invoked `d.close()` (line 69;
exceptions from `close` are swallowed by the `try`/`catch`, so the
collection step always proceeds). -/
inductive Ev where
  | device (d : Device)
  | device_online (d : Device)
  | device_updated (d : Device)
  | device_offline (d : Device)
  | closed (d : Device)
deriving DecidableEq, Repr

/-! ### Identifier normalizer (`Client.parseUUID`, lines 163–186) -/

/-- Hex digit as accepted by the case-insensitive classes `[0-9a-f]` of
`UUID_REGEX` and `UUID_REGEX_NO_HYPENS`. -/
def isHexDigit (c : Char) : Bool :=
  ('0' ≤ c && c ≤ '9') || ('a' ≤ c && c ≤ 'f') || ('A' ≤ c && c ≤ 'F')

/-- The first `n` characters exist and are hex digits. -/
def hexRun : Nat → List Char → Bool
  | 0, _ => true
  | _ + 1, [] => false
  | n + 1, c :: rest => isHexDigit c && hexRun n rest

/-- The list starts with a hyphen. -/
def startsWithDash : List Char → Bool
  | [] => false
  | c :: _ => c = '-'

/-- The regex `/[0-9a-f]{8}-[0-9a-f]{4}-[0-9a-f]{4}-[0-9a-f]{4}-[0-9a-f]{12}/i`
matches at the start of the list. -/
def matchesUuidAt (l : List Char) : Bool :=
  hexRun 8 l && startsWithDash (l.drop 8) && hexRun 4 (l.drop 9) &&
  startsWithDash (l.drop 13) && hexRun 4 (l.drop 14) &&
  startsWithDash (l.drop 18) && hexRun 4 (l.drop 19) &&
  startsWithDash (l.drop 23) && hexRun 12 (l.drop 24)

/-- `data.match(UUID_REGEX)`: the leftmost 36-character window matching
the hyphenated UUID pattern, if any. -/
def findUuidMatch : List Char → Option (List Char)
  | [] => none
  | c :: rest =>
    if matchesUuidAt (c :: rest) then some ((c :: rest).take 36)
    else findUuidMatch rest

/-- `data.match(UUID_REGEX_NO_HYPENS)`: the leftmost run of 32 hex
characters, if any. -/
def find32Match : List Char → Option (List Char)
  | [] => none
  | c :: rest =>
    if hexRun 32 (c :: rest) then some ((c :: rest).take 32)
    else find32Match rest

/-- JS `String.prototype.replace('-','')` with a *string* pattern: only
the first occurrence of the hyphen is removed (line 170). -/
def removeFirstDash : List Char → List Char
  | [] => []
  | c :: rest => if c = '-' then rest else c :: removeFirstDash rest

/-- `Client.parseUUID` (lines 163–186): try the hyphenated UUID regex and
remove the first hyphen of the match; else try the bare 32-hex regex and
return the match verbatim; else return the input unchanged. -/
def parseUUID (data : String) : String :=
  match findUuidMatch data.data with
  | some m => ⟨removeFirstDash m⟩
  | none =>
    match find32Match data.data with
    | some m => ⟨m⟩
    | none => data

/-! ### Registry reconciliation (`Client._updateDevice`, lines 91–161) -/

/-- The five-field difference test of lines 110–116 (JS `!=` on each
field; the staged `discoveryName` is compared against the record's
`name`). -/
def changedFields (dev : StagedDevice) (o : Device) : Bool :=
  jsNeq dev.discoveryName o.name || jsNeq dev.friendlyName o.friendlyName ||
  jsNeq dev.host o.host || jsNeq dev.manufacturer o.manufacturer ||
  jsNeq dev.modelName o.modelName

/-- Overwrite an existing record's fields from the staged fragment and
refresh `lastSeen` (lines 123–128). -/
def mergeInto (dev : StagedDevice) (now : Nat) (o : Device) : Device :=
  { o with name := dev.discoveryName, friendlyName := dev.friendlyName,
           host := dev.host, manufacturer := dev.manufacturer,
           modelName := dev.modelName, lastSeen := now }

/-- Construct a fresh public record from a staged fragment
(lines 136–144). -/
def mkDevice (uuid : String) (dev : StagedDevice) (now : Nat) : Device :=
  { uuid := uuid, name := dev.discoveryName, friendlyName := dev.friendlyName,
    host := dev.host, manufacturer := dev.manufacturer,
    modelName := dev.modelName, lastSeen := now }

/-- In-place mutation of the first list element satisfying `p` (JS
mutates the object returned by `Array.prototype.find`). -/
def updateFirst {α : Type} (p : α → Bool) (f : α → α) : List α → List α
  | [] => []
  | d :: rest => if p d then f d :: rest else d :: updateFirst p f rest

/-- `Client._updateDevice` (lines 91–161): look up the staged fragment and
the existing public record; overwrite or push; emit, in order, `device`
(new or changed), `device_online` (new only) and `device_updated`
(existing and changed only).  Every call site first ensures the staged
entry exists, so the `none` branch is unreachable. -/
def _updateDevice (uuid : String) (now : Nat) (s : ClientState) :
    ClientState × List Ev :=
  match getKey s._devices uuid with
  | none => (s, [])
  | some dev =>
    match s.devices.find? (fun v => v.uuid == uuid) with
    | some o =>
      let o' := mergeInto dev now o
      let devices' := updateFirst (fun v => v.uuid == uuid) (fun _ => o') s.devices
      if changedFields dev o then
        ({ s with devices := devices' }, [Ev.device o', Ev.device_updated o'])
      else
        ({ s with devices := devices' }, [])
    | none =>
      let d' := mkDevice uuid dev now
      ({ s with devices := s.devices ++ [d'] },
       [Ev.device d', Ev.device_online d'])

/-! ### mDNS fragment collector (`onEachAnswer`, lines 194–295) -/

/-- A decoded mDNS answer record.  TXT chunk decoding (`dns-txt`,
lines 263–274) is an external collaborator; a TXT answer carries its
decoded key/value pairs in chunk order, later pairs overwriting earlier
ones on key collision. -/
inductive Answer where
  | ptr (name : String) (data : String)
  | srv (name : String) (target : String)
  | txt (name : String) (data : List (String × String))
deriving DecidableEq, Repr

/-- Read a key from the folded TXT dictionary: the last binding wins,
matching the overwrite loop of lines 266–271. -/
def lastVal (data : List (String × String)) (key : String) : JsStr :=
  data.foldl (fun acc kv => if kv.1 = key then some kv.2 else acc) none

/-- ASCII lowercasing of one character (`String.prototype.toLowerCase`
restricted to the ASCII strategy values in play). -/
def toLowerAscii (c : Char) : Char :=
  if 'A' ≤ c && c ≤ 'Z' then Char.ofNat (c.toNat + 32) else c

/-- `strategy.toLowerCase()` (line 237). -/
def lowerStr (s : String) : String := ⟨s.data.map toLowerAscii⟩

/-- The announce gate used before every mDNS reconciliation
(lines 221–224, 251, 290): both `host` and `friendlyName` of the staged
fragment must be truthy. -/
def announceGate (dev : StagedDevice) : Bool :=
  truthy dev.host && truthy dev.friendlyName

/-- The fragment created by a PTR answer for an unseen identifier
(lines 210–215). -/
def ptrNewFrag (uuid data : String) : StagedDevice :=
  { uuid := some uuid, discoveryName := some data,
    friendlyName := none, host := none,
    manufacturer := none, modelName := none }

/-- The PTR update of an existing fragment (lines 217–218): set
`discoveryName` when the PTR data is truthy. -/
def applyPtr (data : String) (dev : StagedDevice) : StagedDevice :=
  if data ≠ "" then { dev with discoveryName := some data } else dev

/-- The host chosen by an SRV answer (lines 237–245): the SRV target
under the `srv` strategy, the responder address under `rinfo` or any
other value. -/
def srvHost (strategy rinfoAddr target : String) : JsStr :=
  if lowerStr strategy = "srv" then some target else some rinfoAddr

/-- The SRV update of an existing fragment (lines 237–248). -/
def applySrv (strategy rinfoAddr name target : String) (dev : StagedDevice) :
    StagedDevice :=
  let dev := { dev with host := srvHost strategy rinfoAddr target }
  if name ≠ "" then { dev with discoveryName := some name } else dev

/-- The TXT update of an existing fragment (lines 278–287): refresh
`discoveryName`, set `friendlyName` from `fn` or `n`, and set `modelName`
from `d` only when it is not already set (SSDP data preferred). -/
def applyTxt (name : String) (data : List (String × String))
    (dev : StagedDevice) : StagedDevice :=
  let friendlyName := jsOrS (lastVal data "fn") (lastVal data "n")
  let modelName := lastVal data "d"
  let dev := if name ≠ "" then { dev with discoveryName := some name } else dev
  let dev := if truthy friendlyName then { dev with friendlyName := friendlyName } else dev
  if truthy modelName && !truthy dev.modelName then
    { dev with modelName := modelName }
  else dev

/-- One `onEachAnswer` invocation (lines 194–295).  `strategy` is
`this._mdns_host_stategy`, `rinfoAddr` the UDP responder's address, `now`
the reconciliation timestamp. -/
def stepAnswer (strategy rinfoAddr : String) (now : Nat) (a : Answer)
    (s : ClientState) : ClientState × List Ev :=
  match a with
  | .ptr name data =>
    if name = "_googlecast._tcp.local" then
      let uuid := parseUUID data
      match getKey s._devices uuid with
      | none =>
        ({ s with _devices := setKey s._devices uuid (ptrNewFrag uuid data) }, [])
      | some dev =>
        let dev := applyPtr data dev
        let s := { s with _devices := setKey s._devices uuid dev }
        if announceGate dev then _updateDevice uuid now s else (s, [])
    else (s, [])
  | .srv name target =>
    let uuid := parseUUID name
    match getKey s._devices uuid with
    | none => (s, [])
    | some dev =>
      let dev := applySrv strategy rinfoAddr name target dev
      let s := { s with _devices := setKey s._devices uuid dev }
      if announceGate dev then _updateDevice uuid now s else (s, [])
  | .txt name data =>
    let uuid := parseUUID name
    match getKey s._devices uuid with
    | none => (s, [])
    | some dev =>
      let dev := applyTxt name data dev
      let s := { s with _devices := setKey s._devices uuid dev }
      if announceGate dev then _updateDevice uuid now s else (s, [])

/-! ### SSDP fragment collector (`Client.querySSDP`, lines 309–408) -/

/-- The parsed device description document delivered by the XML parser
(fields read at lines 338–357). -/
structure SsdpDevice where
  deviceType : JsStr
  friendlyName : JsStr
  manufacturer : JsStr
  modelName : JsStr
  UDN : JsStr
deriving DecidableEq, Repr

def SSDP_DEVICE_TYPE : String := "urn:dial-multiscreen-org:device:dial:1"

/-- `udn.replace(/uuid:/g, '')`: remove every (non-overlapping, leftmost
first) occurrence of the substring `uuid:`. -/
def stripUuidLabel : List Char → List Char
  | 'u' :: 'u' :: 'i' :: 'd' :: ':' :: rest => stripUuidLabel rest
  | c :: rest => c :: stripUuidLabel rest
  | [] => []

/-- Remove every `uuid:` label and then every hyphen from the UDN, as the
two chained global `replace` calls of lines 361 and 367 do. -/
def stripUdn (udn : String) : String :=
  ⟨(stripUuidLabel udn.data).filter (fun c => c ≠ '-')⟩

/-- The SSDP-synthesized discovery name of line 361. -/
def synthDiscoveryName (udn : String) : String :=
  "Chromecast-" ++ stripUdn udn ++ "._googlecast._tcp.local"

/-- The fully-populated fragment created for an identifier unseen in the
staging table (lines 372–378; the literal has no `uuid` property). -/
def ssdpNewFrag (discoveryName rinfoAddr : String) (d : SsdpDevice) :
    StagedDevice :=
  { uuid := none, discoveryName := some discoveryName,
    friendlyName := d.friendlyName, host := some rinfoAddr,
    manufacturer := d.manufacturer, modelName := d.modelName }

/-- The SSDP merge into an existing fragment (lines 380–390):
`discoveryName` only when unset (mDNS preferred), all other fields when
the incoming value is truthy. -/
def applySsdpMerge (discoveryName rinfoAddr : String) (d : SsdpDevice)
    (dev : StagedDevice) : StagedDevice :=
  let dev :=
    if truthy (some discoveryName) && !truthy dev.discoveryName then
      { dev with discoveryName := some discoveryName }
    else dev
  let dev :=
    if truthy d.friendlyName then { dev with friendlyName := d.friendlyName }
    else dev
  let dev := if rinfoAddr ≠ "" then { dev with host := some rinfoAddr } else dev
  let dev :=
    if truthy d.manufacturer then { dev with manufacturer := d.manufacturer }
    else dev
  if truthy d.modelName then { dev with modelName := d.modelName } else dev

/-- One SSDP response through the handler of lines 314–404, after the
external HTTP fetch and XML parse.  `desc = none` covers a parse error or
a missing `device` element (both discard silently).  A description with
`UDN` absent aborts with a `TypeError` at line 361 before any state is
mutated, so it is also a state-preserving no-op. -/
def stepSsdp (statusCode : Nat) (location : JsStr) (rinfoAddr : String)
    (desc : Option SsdpDevice) (now : Nat) (s : ClientState) :
    ClientState × List Ev :=
  if statusCode != 200 || !truthy location then (s, [])
  else
    match desc with
    | none => (s, [])
    | some d =>
      if jsNeq d.deviceType (some SSDP_DEVICE_TYPE) || !truthy d.friendlyName then
        (s, [])
      else
        match d.UDN with
        | none => (s, [])
        | some udn =>
          let discoveryName := synthDiscoveryName udn
          if udn = "" then (s, [])
          else
            let uuid := parseUUID (stripUdn udn)
            match getKey s._devices uuid with
            | none =>
              let s := { s with _devices := setKey s._devices uuid (ssdpNewFrag discoveryName rinfoAddr d) }
              _updateDevice uuid now s
            | some dev =>
              let dev := applySsdpMerge discoveryName rinfoAddr d dev
              let s := { s with _devices := setKey s._devices uuid dev }
              _updateDevice uuid now s

/-! ### Garbage collector (`Client.constructor`, lines 58–82) -/

/-- The staleness test of lines 63–66: `last_seen` must be truthy (a
timestamp of `0` is falsy in JS) and `now − last_seen` must exceed the
threshold.  JS evaluates `now - lastSeen` as a possibly negative number;
since the threshold is positive in every activated configuration,
truncated `Nat` subtraction agrees with it. -/
def gcCollect (threshold now : Nat) (d : Device) : Bool :=
  d.lastSeen != 0 && now - d.lastSeen > threshold

/-- The staging-table key used by `delete this._devices[device.name]`
(line 75).  `name` is always a string in reachable states; JS would
coerce a missing one to the key `"undefined"`. -/
def deviceKey (d : Device) : String := d.name.getD "undefined"

/-- `Array.prototype.forEach` over the live registry with
`splice(index, 1)` inside the callback (lines 61–80): the index range is
fixed to the array's initial length, each index is bounds-checked against
the *current* array, and a splice shifts later elements into
already-visited slots. -/
def gcIter (threshold now : Nat) :
    Nat → Nat → List (String × StagedDevice) → List Device →
    List (String × StagedDevice) × List Device × List Ev
  | _, 0, st, ds => (st, ds, [])
  | k, steps + 1, st, ds =>
    match ds[k]? with
    | none => gcIter threshold now (k + 1) steps st ds
    | some d =>
      if gcCollect threshold now d then
        let st' := delKey st (deviceKey d)
        let ds' := ds.eraseIdx k
        let r := gcIter threshold now (k + 1) steps st' ds'
        (r.1, r.2.1, Ev.closed d :: Ev.device_offline d :: r.2.2)
      else gcIter threshold now (k + 1) steps st ds

/-- One garbage-collection tick (the `setInterval` body of lines 59–81). -/
def gcTick (threshold now : Nat) (s : ClientState) : ClientState × List Ev :=
  let r := gcIter threshold now 0 s.devices.length s._devices s.devices
  ({ _devices := r.1, devices := r.2.1 }, r.2.2)

/-! ### The whole client as a step relation -/

/-- `options.mdns_host_stategy || 'rinfo'` (line 32): the constructor
reads the — literally so spelled — option `mdns_host_stategy`; a falsy
or absent value defaults to `rinfo`. -/
def mdnsHostStrategyOf (opts : List (String × String)) : String :=
  match getKey opts "mdns_host_stategy" with
  | some v => if v = "" then "rinfo" else v
  | none => "rinfo"

/-- Client configuration relevant to the discovery core. -/
structure Config where
  mdns_host_stategy : String
  gc_threshold : Nat
deriving Repr

/-- An external stimulus: a decoded mDNS answer with its responder
address, an SSDP response with its fetched description document, or a
garbage-collection timer tick. -/
inductive Input where
  | mdns (rinfoAddr : String) (a : Answer)
  | ssdp (statusCode : Nat) (location : JsStr) (rinfoAddr : String)
      (desc : Option SsdpDevice)
  | gc
deriving Repr

/-- Dispatch one stimulus at time `now`. -/
def step (cfg : Config) (now : Nat) (i : Input) (s : ClientState) :
    ClientState × List Ev :=
  match i with
  | .mdns rinfoAddr a => stepAnswer cfg.mdns_host_stategy rinfoAddr now a s
  | .ssdp sc loc addr desc => stepSsdp sc loc addr desc now s
  | .gc => gcTick cfg.gc_threshold now s

/-- Run a timed trace of stimuli. -/
def run (cfg : Config) : List (Nat × Input) → ClientState → ClientState
  | [], s => s
  | (now, i) :: rest, s => run cfg rest (step cfg now i s).1

/-- The state right after the constructor: both collections empty
(lines 26–29). -/
def initState : ClientState := { _devices := [], devices := [] }

/-- Deliver a list of mDNS answers of one response in order
(`response.answers.forEach(onEachAnswer)`, lines 297–298), collecting
all emitted events. -/
def runAnswers (strategy rinfoAddr : String) (now : Nat) :
    List Answer → ClientState → ClientState × List Ev
  | [], s => (s, [])
  | a :: rest, s =>
    let r := stepAnswer strategy rinfoAddr now a s
    let r2 := runAnswers strategy rinfoAddr now rest r.1
    (r2.1, r.2 ++ r2.2)

/-! ### Concrete sample data -/

/-- A staged fragment for an announced device whose staging key (the
identifier) differs from its discovery name, as in all real traffic. -/
def gcFragA : StagedDevice :=
  { uuid := some "aaaabbbbccccddddeeeeffff00001111",
    discoveryName := some "Chromecast-A._googlecast._tcp.local",
    friendlyName := some "Living Room", host := some "10.0.0.5",
    manufacturer := none, modelName := none }

def devA : Device :=
  { uuid := "aaaabbbbccccddddeeeeffff00001111",
    name := some "Chromecast-A._googlecast._tcp.local",
    friendlyName := some "Living Room", host := some "10.0.0.5",
    manufacturer := none, modelName := none, lastSeen := 1 }

def devB : Device :=
  { uuid := "bbbbccccddddeeeeffff000011112222",
    name := some "Chromecast-B._googlecast._tcp.local",
    friendlyName := some "Kitchen", host := some "10.0.0.6",
    manufacturer := none, modelName := none, lastSeen := 1 }

def gcStateA : ClientState :=
  { _devices := [("aaaabbbbccccddddeeeeffff00001111", gcFragA)], devices := [devA] }

def gcStateB : ClientState := { _devices := [], devices := [devA, devB] }

def c9Frag : StagedDevice :=
  { uuid := some "devname1", discoveryName := some "devname1",
    friendlyName := some "TV", host := none,
    manufacturer := none, modelName := none }

def c9State : ClientState :=
  { _devices := [("devname1", c9Frag)], devices := [] }

def c7Frag : StagedDevice :=
  { uuid := some "u7", discoveryName := some "dn7",
    friendlyName := some "FN", host := some "10.0.0.9",
    manufacturer := none, modelName := none }

def c5Frag : StagedDevice :=
  { uuid := some "u5", discoveryName := some "dn5",
    friendlyName := some "FN", host := some "10.0.0.9",
    manufacturer := none, modelName := some "Chromecast Ultra" }

def c6Desc : SsdpDevice :=
  { deviceType := some "urn:dial-multiscreen-org:device:dial:1",
    friendlyName := some "Kitchen", manufacturer := some "Google Inc.",
    modelName := some "Eureka Dongle",
    UDN := some "uuid:1111-2222-3333-4444-555566667777" }

/-- The environmental assumption that SSDP responses carry a nonempty
responder address (in Node, `rinfo.address` is always a real address). -/
def ssdpAddrOk : Nat × Input → Bool
  | (_, .ssdp _ _ addr _) => addr != ""
  | _ => true

/-! ### Spec-side characterization of the normalizer (for C3)

The predicates below follow the spec's words — "a hyphenated UUID
pattern (8-4-4-4-12 hex groups, case-insensitive)" and "a bare
32-hex-character run" — independently of the scanning code, so that the
code's regex search can be compared against them. -/

/-- All characters are hex digits. -/
def isHexList (l : List Char) : Bool := l.all isHexDigit

/-- The spec's hyphenated UUID pattern: five hex groups of lengths
8-4-4-4-12 joined by single hyphens. -/
def SpecHyphenUuid (m : List Char) : Prop :=
  ∃ g1 g2 g3 g4 g5 : List Char,
    g1.length = 8 ∧ g2.length = 4 ∧ g3.length = 4 ∧ g4.length = 4 ∧
    g5.length = 12 ∧
    isHexList g1 = true ∧ isHexList g2 = true ∧ isHexList g3 = true ∧
    isHexList g4 = true ∧ isHexList g5 = true ∧
    m = g1 ++ '-' :: (g2 ++ '-' :: (g3 ++ '-' :: (g4 ++ '-' :: g5)))

/-- The spec's bare 32-hex-character run. -/
def Spec32Hex (m : List Char) : Prop :=
  m.length = 32 ∧ isHexList m = true

/-! ### Definitions for C8 (idempotent re-delivery) -/

/-- Record equality up to the `lastSeen` timestamp. -/
def eqExceptLastSeen (a b : Device) : Bool :=
  decide (a.uuid = b.uuid) && decide (a.name = b.name) &&
  decide (a.friendlyName = b.friendlyName) && decide (a.host = b.host) &&
  decide (a.manufacturer = b.manufacturer) && decide (a.modelName = b.modelName)

/-- Pointwise relation between two lists of equal length. -/
def forall2B (R : Device → Device → Bool) : List Device → List Device → Bool
  | [], [] => true
  | a :: as, b :: bs => R a b && forall2B R as bs
  | _, _ => false

/-- No `device_updated` event occurs in the list. -/
def noUpdated (evs : List Ev) : Bool :=
  evs.all fun e => match e with
    | .device_updated _ => false
    | _ => true

/-- An answer that `onEachAnswer` actually processes (PTR answers for
other service classes are ignored). -/
def processedB : Answer → Bool
  | .ptr nm _ => decide (nm = "_googlecast._tcp.local")
  | _ => true

def hasProcessedB (as : List Answer) : Bool := as.any processedB

/-- A self-consistent mDNS response for one service instance `n`: every
processed PTR names it in its data, every SRV/TXT names it and all SRV
targets and TXT payloads agree (the shape of a real single-device
response). -/
def coherentAB (n target : String) (tdata : List (String × String)) :
    Answer → Bool
  | .ptr nm data => !decide (nm = "_googlecast._tcp.local") || decide (data = n)
  | .srv nm tg => decide (nm = n) && decide (tg = target)
  | .txt nm dt => decide (nm = n) && decide (dt = tdata)

def coherentB (n target : String) (tdata : List (String × String))
    (as : List Answer) : Bool :=
  as.all (coherentAB n target tdata)

/-- The staged fragment has absorbed a processed PTR's write. -/
def absorbsPtr (n : String) (frag : StagedDevice) : Prop :=
  n ≠ "" → frag.discoveryName = some n

/-- The staged fragment has absorbed an SRV's writes. -/
def absorbsSrv (strategy rinfoAddr target n : String)
    (frag : StagedDevice) : Prop :=
  frag.host = srvHost strategy rinfoAddr target ∧ absorbsPtr n frag

/-- The staged fragment has absorbed a TXT's writes. -/
def absorbsTxt (tdata : List (String × String)) (n : String)
    (frag : StagedDevice) : Prop :=
  absorbsPtr n frag ∧
  (truthy (jsOrS (lastVal tdata "fn") (lastVal tdata "n")) = true →
    frag.friendlyName = jsOrS (lastVal tdata "fn") (lastVal tdata "n")) ∧
  (truthy (lastVal tdata "d") = true → truthy frag.modelName = true)

/-- The absorption condition matching an answer's kind. -/
def absorbsFor (strategy rinfoAddr target : String)
    (tdata : List (String × String)) (n : String) :
    Answer → StagedDevice → Prop
  | .ptr _ _, frag => absorbsPtr n frag
  | .srv _ _, frag => absorbsSrv strategy rinfoAddr target n frag
  | .txt _ _, frag => absorbsTxt tdata n frag

/-- The registry record for `u` (when the gate holds) agrees with the
staged fragment on every compared field. -/
def syncedAt (s : ClientState) (u : String) (frag : StagedDevice) : Prop :=
  announceGate frag = true →
    ∃ o, s.devices.find? (fun v => v.uuid == u) = some o ∧
      changedFields frag o = false

/-- A coherent single-device mDNS response used to exercise re-delivery:
one googlecast PTR, one SRV and one TXT, all naming the same service
instance. -/
def c8N : String := "Kitchen._googlecast._tcp.local"

def c8Target : String := "kitchen.local"

def c8Tdata : List (String × String) := [("fn", "Kitchen"), ("d", "Chromecast")]

def c8As : List Answer :=
  [Answer.ptr "_googlecast._tcp.local" c8N, Answer.srv c8N c8Target,
   Answer.txt c8N c8Tdata]

/-- A fully-known staged fragment for that service instance. -/
def c8Frag : StagedDevice :=
  { uuid := some c8N, discoveryName := some c8N,
    friendlyName := some "Kitchen", host := some "10.0.0.9",
    manufacturer := none, modelName := some "Chromecast" }

def c8S : ClientState := { _devices := [(c8N, c8Frag)], devices := [] }

/-- A description document passing both SSDP gates (lines 338–343). -/
def c8Desc : SsdpDevice :=
  { deviceType := some SSDP_DEVICE_TYPE, friendlyName := some "Kitchen",
    manufacturer := some "Google Inc.", modelName := some "Eureka",
    UDN := some "uuid:abcd" }

/-- Smoke test (spec scenario 1): PTR then SRV then TXT from responder
`10.0.0.5` yield exactly one record with that host and the TXT friendly
name. -/
example :
    (run { mdns_host_stategy := "rinfo", gc_threshold := 0 }
      [(10, .mdns "10.0.0.5" (.ptr "_googlecast._tcp.local"
          "Chromecast-aaaaaaaaaaaaaaaaaaaaaaaaaaaaaaaa._googlecast._tcp.local")),
       (11, .mdns "10.0.0.5" (.srv
          "Chromecast-aaaaaaaaaaaaaaaaaaaaaaaaaaaaaaaa._googlecast._tcp.local"
          "device.local")),
       (12, .mdns "10.0.0.5" (.txt
          "Chromecast-aaaaaaaaaaaaaaaaaaaaaaaaaaaaaaaa._googlecast._tcp.local"
          [("fn", "Living Room TV")]))]
      initState).devices =
    [{ uuid := "aaaaaaaaaaaaaaaaaaaaaaaaaaaaaaaa",
       name := some "Chromecast-aaaaaaaaaaaaaaaaaaaaaaaaaaaaaaaa._googlecast._tcp.local",
       friendlyName := some "Living Room TV", host := some "10.0.0.5",
       manufacturer := none, modelName := none, lastSeen := 12 }] := by decide

/-! ### C1 — garbage-collection postcondition -/

/-- C1: a single stale device (last seen at 1, tick at 100, threshold 2)
is closed, removed from the public registry, and emits exactly one
offline event — but its staging-table entry survives the tick, because
line 75 deletes the key `device.name` (the discovery name) while the
staging table is keyed by the identifier.  This refutes the claim's
"removes the record from both the staging table and the public
registry". -/
theorem c1_gc_staging_entry_retained :
    gcTick 2 100 gcStateA =
      ({ _devices := [("aaaabbbbccccddddeeeeffff00001111", gcFragA)],
         devices := [] },
       [Ev.closed devA, Ev.device_offline devA]) ∧
    gcCollect 2 100 devA = true ∧
    getKey (gcTick 2 100 gcStateA).1._devices
      "aaaabbbbccccddddeeeeffff00001111" = some gcFragA := by decide

/-! ### C2 — garbage-collection scan completeness -/

/-- C2: with two stale devices in the registry, one GC tick evicts only
the first: `splice(index, 1)` inside `forEach` shifts the second device
into the already-visited slot, so it is skipped, stays in the registry
and emits no offline event — refuting the claim that no record is
skipped and that an all-stale registry is fully evicted in one tick. -/
theorem c2_gc_second_stale_skipped :
    gcTick 2 100 gcStateB =
      ({ _devices := [], devices := [devB] },
       [Ev.closed devA, Ev.device_offline devA]) ∧
    gcCollect 2 100 devB = true := by decide

/-! ### C3 — identifier-normalizer contract -/

/-- C3 counterexample: on a hyphenated UUID, `parseUUID` removes only the
first hyphen (line 170 uses `replace` with a string pattern), so the
result is not the 32-character identifier with all hyphens stripped that
the claim asserts. -/
theorem c3_counterexample_first_hyphen_only :
    parseUUID "12345678-1234-1234-1234-123456789abc" =
      "123456781234-1234-1234-123456789abc" ∧
    parseUUID "12345678-1234-1234-1234-123456789abc" ≠
      "12345678123412341234123456789abc" := by decide

/-! ### C9 — host-strategy configuration -/

/-- C9 counterexample: the constructor reads the option
`mdns_host_stategy` (line 32), not `mdns_host_strategy` as the claim
states.  A configuration carrying only the claimed key
`mdns_host_strategy = "srv"` therefore leaves the strategy at its
default `rinfo`, and an SRV record's host is taken from the responder
address instead of the SRV target. -/
theorem c9_counterexample_option_name :
    mdnsHostStrategyOf [("mdns_host_strategy", "srv")] = "rinfo" ∧
    getKey (stepAnswer (mdnsHostStrategyOf [("mdns_host_strategy", "srv")])
        "10.0.0.5" 50 (.srv "devname1" "device.local") c9State).1._devices
      "devname1" =
      some { c9Frag with host := some "10.0.0.5" } ∧
    (some "10.0.0.5" : JsStr) ≠ some "device.local" := by decide

/-! ### Basic lemmas about the embedding's primitives -/

theorem jsNeq_self (a : JsStr) : jsNeq a a = false := by
  cases a <;> simp [jsNeq]

theorem jsNeq_eq_false_iff {a b : JsStr} : jsNeq a b = false ↔ a = b := by
  cases a <;> cases b <;> simp [jsNeq]

theorem changedFields_eq_false_iff {dev : StagedDevice} {o : Device} :
    changedFields dev o = false ↔
      dev.discoveryName = o.name ∧ dev.friendlyName = o.friendlyName ∧
      dev.host = o.host ∧ dev.manufacturer = o.manufacturer ∧
      dev.modelName = o.modelName := by
  simp [changedFields, jsNeq_eq_false_iff, and_assoc]

theorem changedFields_mergeInto (dev : StagedDevice) (now : Nat) (o' : Device) :
    changedFields dev (mergeInto dev now o') = false := by
  simp [changedFields_eq_false_iff, mergeInto]

theorem mergeInto_of_unchanged {dev : StagedDevice} {o : Device} (now : Nat)
    (h : changedFields dev o = false) :
    mergeInto dev now o = { o with lastSeen := now } := by
  obtain ⟨h1, h2, h3, h4, h5⟩ := changedFields_eq_false_iff.mp h
  simp [mergeInto, h1, h2, h3, h4, h5]

theorem getKey_setKey_self {α : Type} (l : List (String × α)) (k : String) (v : α) :
    getKey (setKey l k v) k = some v := by
  induction l with
  | nil => simp [setKey, getKey]
  | cons p rest ih =>
    by_cases h : p.1 = k <;> simp [setKey, getKey, h, ih]

theorem getKey_setKey_ne {α : Type} (l : List (String × α)) (k k' : String)
    (v : α) (h : k ≠ k') : getKey (setKey l k v) k' = getKey l k' := by
  induction l with
  | nil => simp [setKey, getKey, h]
  | cons p rest ih =>
    obtain ⟨k0, v0⟩ := p
    by_cases hp : k0 = k
    · subst hp; simp [setKey, getKey, h]
    · simp [setKey, getKey, hp, ih]

theorem setKey_of_getKey {α : Type} {l : List (String × α)} {k : String} {v : α}
    (h : getKey l k = some v) : setKey l k v = l := by
  induction l with
  | nil => simp [getKey] at h
  | cons p rest ih =>
    by_cases hp : p.1 = k
    · obtain ⟨k0, v0⟩ := p
      simp only at hp; subst hp
      simp [getKey] at h
      simp [setKey, h]
    · simp [getKey, hp] at h
      simp [setKey, hp, ih h]

theorem updateFirst_congr {α : Type} (p : α → Bool) (f g : α → α) :
    ∀ (l : List α) (o : α), l.find? p = some o → f o = g o →
      updateFirst p f l = updateFirst p g l := by
  intro l
  induction l with
  | nil => intro _o h; simp [List.find?] at h
  | cons a t ih =>
    intro o h hfg
    by_cases hp : p a = true
    · rw [List.find?_cons_of_pos _ hp] at h
      injection h with h; subst h
      simp [updateFirst, hp, hfg]
    · rw [List.find?_cons_of_neg _ (by simpa using hp)] at h
      simp [updateFirst, hp, ih o h hfg]

theorem updateFirst_mem {α : Type} {p : α → Bool} {f : α → α} :
    ∀ {l : List α} {x : α}, x ∈ updateFirst p f l →
      x ∈ l ∨ ∃ r, r ∈ l ∧ p r = true ∧ x = f r := by
  intro l
  induction l with
  | nil => intro x hx; simp [updateFirst] at hx
  | cons a t ih =>
    intro x hx
    by_cases hp : p a = true
    · simp only [updateFirst, hp, if_true, List.mem_cons] at hx
      rcases hx with hx | hx
      · exact Or.inr ⟨a, by simp, hp, hx⟩
      · exact Or.inl (by simp [hx])
    · simp only [updateFirst, hp, if_false, Bool.false_eq_true, List.mem_cons] at hx
      rcases hx with hx | hx
      · exact Or.inl (by simp [hx])
      · rcases ih hx with h | ⟨r, hr, hpr, hxr⟩
        · exact Or.inl (by simp [h])
        · exact Or.inr ⟨r, by simp [hr], hpr, hxr⟩

/-! ### Field characterizations of the fragment updates -/

theorem applyPtr_fields (data : String) (dev : StagedDevice) :
    (applyPtr data dev).uuid = dev.uuid ∧
    (applyPtr data dev).friendlyName = dev.friendlyName ∧
    (applyPtr data dev).host = dev.host ∧
    (applyPtr data dev).manufacturer = dev.manufacturer ∧
    (applyPtr data dev).modelName = dev.modelName ∧
    (applyPtr data dev).discoveryName =
      (if data ≠ "" then some data else dev.discoveryName) := by
  unfold applyPtr
  by_cases h : data = "" <;> simp [h]

theorem applySrv_fields (strategy rinfoAddr name target : String)
    (dev : StagedDevice) :
    (applySrv strategy rinfoAddr name target dev).uuid = dev.uuid ∧
    (applySrv strategy rinfoAddr name target dev).friendlyName = dev.friendlyName ∧
    (applySrv strategy rinfoAddr name target dev).manufacturer = dev.manufacturer ∧
    (applySrv strategy rinfoAddr name target dev).modelName = dev.modelName ∧
    (applySrv strategy rinfoAddr name target dev).host =
      srvHost strategy rinfoAddr target ∧
    (applySrv strategy rinfoAddr name target dev).discoveryName =
      (if name ≠ "" then some name else dev.discoveryName) := by
  unfold applySrv
  by_cases h : name = "" <;> simp [h]

theorem applyTxt_fields (name : String) (data : List (String × String))
    (dev : StagedDevice) :
    (applyTxt name data dev).uuid = dev.uuid ∧
    (applyTxt name data dev).host = dev.host ∧
    (applyTxt name data dev).manufacturer = dev.manufacturer ∧
    (applyTxt name data dev).discoveryName =
      (if name ≠ "" then some name else dev.discoveryName) ∧
    (applyTxt name data dev).friendlyName =
      (if truthy (jsOrS (lastVal data "fn") (lastVal data "n")) then
        jsOrS (lastVal data "fn") (lastVal data "n")
      else dev.friendlyName) ∧
    (applyTxt name data dev).modelName =
      (if truthy (lastVal data "d") && !truthy dev.modelName then
        lastVal data "d"
      else dev.modelName) := by
  unfold applyTxt
  by_cases h1 : name = "" <;>
    by_cases h2 : truthy (jsOrS (lastVal data "fn") (lastVal data "n")) <;>
    by_cases h3 : truthy (lastVal data "d") && !truthy dev.modelName <;>
    simp [h1, h2, h3]

theorem applySsdpMerge_fields (discoveryName rinfoAddr : String)
    (d : SsdpDevice) (dev : StagedDevice) :
    (applySsdpMerge discoveryName rinfoAddr d dev).uuid = dev.uuid ∧
    (applySsdpMerge discoveryName rinfoAddr d dev).discoveryName =
      (if truthy (some discoveryName) && !truthy dev.discoveryName then
        some discoveryName
      else dev.discoveryName) ∧
    (applySsdpMerge discoveryName rinfoAddr d dev).friendlyName =
      (if truthy d.friendlyName then d.friendlyName else dev.friendlyName) ∧
    (applySsdpMerge discoveryName rinfoAddr d dev).host =
      (if rinfoAddr ≠ "" then some rinfoAddr else dev.host) ∧
    (applySsdpMerge discoveryName rinfoAddr d dev).manufacturer =
      (if truthy d.manufacturer then d.manufacturer else dev.manufacturer) ∧
    (applySsdpMerge discoveryName rinfoAddr d dev).modelName =
      (if truthy d.modelName then d.modelName else dev.modelName) := by
  unfold applySsdpMerge
  by_cases h1 : truthy (some discoveryName) && !truthy dev.discoveryName <;>
    by_cases h2 : truthy d.friendlyName <;>
    by_cases h3 : rinfoAddr = "" <;>
    by_cases h4 : truthy d.manufacturer <;>
    by_cases h5 : truthy d.modelName <;>
    simp [h1, h2, h3, h4, h5]

/-! ### Branch equations for the collectors -/

theorem stepAnswer_ptr_skip {strategy rinfoAddr : String} {now : Nat}
    {name data : String} {s : ClientState}
    (h : name ≠ "_googlecast._tcp.local") :
    stepAnswer strategy rinfoAddr now (.ptr name data) s = (s, []) := by
  unfold stepAnswer
  simp [h]

theorem stepAnswer_ptr_new {strategy rinfoAddr : String} {now : Nat}
    {data : String} {s : ClientState}
    (h : getKey s._devices (parseUUID data) = none) :
    stepAnswer strategy rinfoAddr now (.ptr "_googlecast._tcp.local" data) s =
      ({ s with _devices := setKey s._devices (parseUUID data) (ptrNewFrag (parseUUID data) data) }, []) := by
  simp only [stepAnswer, if_pos, h]

theorem stepAnswer_ptr_existing {strategy rinfoAddr : String} {now : Nat}
    {data : String} {s : ClientState} {dev : StagedDevice}
    (h : getKey s._devices (parseUUID data) = some dev) :
    stepAnswer strategy rinfoAddr now (.ptr "_googlecast._tcp.local" data) s =
      (if announceGate (applyPtr data dev) then
        _updateDevice (parseUUID data) now
          { s with _devices := setKey s._devices (parseUUID data) (applyPtr data dev) }
      else
        ({ s with _devices := setKey s._devices (parseUUID data) (applyPtr data dev) }, [])) := by
  simp only [stepAnswer, if_pos, h]

theorem stepAnswer_srv_none {strategy rinfoAddr : String} {now : Nat}
    {name target : String} {s : ClientState}
    (h : getKey s._devices (parseUUID name) = none) :
    stepAnswer strategy rinfoAddr now (.srv name target) s = (s, []) := by
  simp only [stepAnswer, h]

theorem stepAnswer_srv_eq {strategy rinfoAddr : String} {now : Nat}
    {name target : String} {s : ClientState} {dev : StagedDevice}
    (h : getKey s._devices (parseUUID name) = some dev) :
    stepAnswer strategy rinfoAddr now (.srv name target) s =
      (if announceGate (applySrv strategy rinfoAddr name target dev) then
        _updateDevice (parseUUID name) now
          { s with _devices := setKey s._devices (parseUUID name) (applySrv strategy rinfoAddr name target dev) }
      else
        ({ s with _devices := setKey s._devices (parseUUID name) (applySrv strategy rinfoAddr name target dev) }, [])) := by
  simp only [stepAnswer, h]

theorem stepAnswer_txt_none {strategy rinfoAddr : String} {now : Nat}
    {name : String} {data : List (String × String)} {s : ClientState}
    (h : getKey s._devices (parseUUID name) = none) :
    stepAnswer strategy rinfoAddr now (.txt name data) s = (s, []) := by
  simp only [stepAnswer, h]

theorem stepAnswer_txt_eq {strategy rinfoAddr : String} {now : Nat}
    {name : String} {data : List (String × String)} {s : ClientState}
    {dev : StagedDevice}
    (h : getKey s._devices (parseUUID name) = some dev) :
    stepAnswer strategy rinfoAddr now (.txt name data) s =
      (if announceGate (applyTxt name data dev) then
        _updateDevice (parseUUID name) now
          { s with _devices := setKey s._devices (parseUUID name) (applyTxt name data dev) }
      else
        ({ s with _devices := setKey s._devices (parseUUID name) (applyTxt name data dev) }, [])) := by
  simp only [stepAnswer, h]

theorem stepSsdp_new_eq {statusCode : Nat} {location : JsStr}
    {rinfoAddr : String} {d : SsdpDevice} {udn : String} {now : Nat}
    {s : ClientState} (hsc : statusCode = 200)
    (hloc : truthy location = true)
    (hdt : jsNeq d.deviceType (some SSDP_DEVICE_TYPE) = false)
    (hfn : truthy d.friendlyName = true) (hudn : d.UDN = some udn)
    (hu : udn ≠ "")
    (hk : getKey s._devices (parseUUID (stripUdn udn)) = none) :
    stepSsdp statusCode location rinfoAddr (some d) now s =
      _updateDevice (parseUUID (stripUdn udn)) now
        { s with _devices := setKey s._devices (parseUUID (stripUdn udn)) (ssdpNewFrag (synthDiscoveryName udn) rinfoAddr d) } := by
  subst hsc
  unfold stepSsdp
  simp [hloc, hdt, hfn, hudn, hu, hk]

theorem stepSsdp_merge_eq {statusCode : Nat} {location : JsStr}
    {rinfoAddr : String} {d : SsdpDevice} {udn : String} {now : Nat}
    {s : ClientState} {dev : StagedDevice} (hsc : statusCode = 200)
    (hloc : truthy location = true)
    (hdt : jsNeq d.deviceType (some SSDP_DEVICE_TYPE) = false)
    (hfn : truthy d.friendlyName = true) (hudn : d.UDN = some udn)
    (hu : udn ≠ "")
    (hk : getKey s._devices (parseUUID (stripUdn udn)) = some dev) :
    stepSsdp statusCode location rinfoAddr (some d) now s =
      _updateDevice (parseUUID (stripUdn udn)) now
        { s with _devices := setKey s._devices (parseUUID (stripUdn udn)) (applySsdpMerge (synthDiscoveryName udn) rinfoAddr d dev) } := by
  subst hsc
  unfold stepSsdp
  simp [hloc, hdt, hfn, hudn, hu, hk]

/-! ### Outcome equations for `_updateDevice` -/

theorem updateDevice_eq_new {uuid : String} {now : Nat} {s : ClientState}
    {dev : StagedDevice} (h : getKey s._devices uuid = some dev)
    (hfind : s.devices.find? (fun v => v.uuid == uuid) = none) :
    _updateDevice uuid now s =
      ({ s with devices := s.devices ++ [mkDevice uuid dev now] },
       [Ev.device (mkDevice uuid dev now),
        Ev.device_online (mkDevice uuid dev now)]) := by
  unfold _updateDevice
  rw [h, hfind]

theorem updateDevice_eq_changed {uuid : String} {now : Nat} {s : ClientState}
    {dev : StagedDevice} {o : Device} (h : getKey s._devices uuid = some dev)
    (hfind : s.devices.find? (fun v => v.uuid == uuid) = some o)
    (hch : changedFields dev o = true) :
    _updateDevice uuid now s =
      ({ s with devices := updateFirst (fun v => v.uuid == uuid) (fun _ => mergeInto dev now o) s.devices },
       [Ev.device (mergeInto dev now o),
        Ev.device_updated (mergeInto dev now o)]) := by
  unfold _updateDevice
  rw [h, hfind]
  simp [hch]

theorem updateDevice_eq_unchanged {uuid : String} {now : Nat} {s : ClientState}
    {dev : StagedDevice} {o : Device} (h : getKey s._devices uuid = some dev)
    (hfind : s.devices.find? (fun v => v.uuid == uuid) = some o)
    (hch : changedFields dev o = false) :
    _updateDevice uuid now s =
      ({ s with devices := updateFirst (fun v => v.uuid == uuid) (fun _ => mergeInto dev now o) s.devices }, []) := by
  unfold _updateDevice
  rw [h, hfind]
  simp [hch]

theorem updateDevice_eq_noStaged {uuid : String} {now : Nat} {s : ClientState}
    (hg : getKey s._devices uuid = none) :
    _updateDevice uuid now s = (s, []) := by
  unfold _updateDevice
  rw [hg]

/-- Every record present after a reconciliation is an untouched original,
the freshly pushed record, or the in-place merge of the found record. -/
theorem updateDevice_mem {uuid : String} {now : Nat} {s : ClientState}
    {r' : Device} (h : r' ∈ (_updateDevice uuid now s).1.devices) :
    r' ∈ s.devices ∨
    ∃ dev, getKey s._devices uuid = some dev ∧
      (r' = mkDevice uuid dev now ∨
       ∃ o, o ∈ s.devices ∧ (o.uuid == uuid) = true ∧
         r' = mergeInto dev now o) := by
  cases hg : getKey s._devices uuid with
  | none =>
    rw [updateDevice_eq_noStaged hg] at h
    exact Or.inl h
  | some dev =>
    cases hfind : s.devices.find? (fun v => v.uuid == uuid) with
    | none =>
      rw [updateDevice_eq_new hg hfind] at h
      rcases List.mem_append.mp h with h | h
      · exact Or.inl h
      · exact Or.inr ⟨dev, rfl, Or.inl (by simpa using h)⟩
    | some o =>
      have hmem : o ∈ s.devices := List.mem_of_find?_eq_some hfind
      have hp' := List.find?_some hfind
      have hp : (o.uuid == uuid) = true := hp'
      by_cases hch : changedFields dev o = true
      · rw [updateDevice_eq_changed hg hfind hch] at h
        rcases updateFirst_mem h with h | ⟨r, _, _, hxr⟩
        · exact Or.inl h
        · exact Or.inr ⟨dev, rfl, Or.inr ⟨o, hmem, hp, hxr⟩⟩
      · rw [updateDevice_eq_unchanged hg hfind (by simpa using hch)] at h
        rcases updateFirst_mem h with h | ⟨r, _, _, hxr⟩
        · exact Or.inl h
        · exact Or.inr ⟨dev, rfl, Or.inr ⟨o, hmem, hp, hxr⟩⟩

/-- `_updateDevice` never touches the staging table. -/
theorem updateDevice_devices_eq {uuid : String} {now : Nat} {s : ClientState} :
    (_updateDevice uuid now s).1._devices = s._devices := by
  unfold _updateDevice
  cases hg : getKey s._devices uuid with
  | none => rfl
  | some dev =>
    cases hfind : s.devices.find? (fun v => v.uuid == uuid) with
    | none => rfl
    | some o => by_cases hch : changedFields dev o <;> simp [hch]

/-! ### C7 — reconciliation event discipline -/

/-- C7: one reconciliation (`_updateDevice`) of an existing staged
fragment emits the generic `device` event iff the device is new or one of
the five compared fields differs; `device_online` iff no record with the
identifier existed; `device_updated` iff a record existed and a compared
field differed; the emitted list is ordered `device`, then
`device_online`/`device_updated`; and a no-change reconciliation emits
nothing while only refreshing the existing record's `lastSeen`. -/
theorem c7_updateDevice_event_discipline (uuid : String) (now : Nat)
    (s : ClientState) (dev : StagedDevice)
    (h : getKey s._devices uuid = some dev) :
    ((∃ d, Ev.device_online d ∈ (_updateDevice uuid now s).2) ↔
      s.devices.find? (fun v => v.uuid == uuid) = none) ∧
    ((∃ d, Ev.device_updated d ∈ (_updateDevice uuid now s).2) ↔
      ∃ o, s.devices.find? (fun v => v.uuid == uuid) = some o ∧
        changedFields dev o = true) ∧
    ((∃ d, Ev.device d ∈ (_updateDevice uuid now s).2) ↔
      (s.devices.find? (fun v => v.uuid == uuid) = none ∨
       ∃ o, s.devices.find? (fun v => v.uuid == uuid) = some o ∧
         changedFields dev o = true)) ∧
    (∃ d, (_updateDevice uuid now s).2 = [] ∨
          (_updateDevice uuid now s).2 = [Ev.device d, Ev.device_online d] ∨
          (_updateDevice uuid now s).2 = [Ev.device d, Ev.device_updated d]) ∧
    (∀ o, s.devices.find? (fun v => v.uuid == uuid) = some o →
      changedFields dev o = false →
      (_updateDevice uuid now s).2 = [] ∧
      (_updateDevice uuid now s).1.devices =
        updateFirst (fun v => v.uuid == uuid)
          (fun v => { v with lastSeen := now }) s.devices) := by
  cases hfind : s.devices.find? (fun v => v.uuid == uuid) with
  | none =>
    rw [updateDevice_eq_new h hfind]
    refine ⟨?_, ?_, ?_, ?_, ?_⟩
    · simp [hfind]
    · simp [hfind]
    · simp [hfind]
    · exact ⟨mkDevice uuid dev now, Or.inr (Or.inl rfl)⟩
    · intro o ho; simp at ho
  | some o =>
    cases hch : changedFields dev o with
    | true =>
      rw [updateDevice_eq_changed h hfind hch]
      refine ⟨?_, ?_, ?_, ?_, ?_⟩
      · simp [hfind]
      · simp only [List.mem_cons, List.not_mem_nil]
        constructor
        · intro; exact ⟨o, rfl, hch⟩
        · intro; exact ⟨mergeInto dev now o, by simp⟩
      · simp only [List.mem_cons, List.not_mem_nil]
        constructor
        · intro; exact Or.inr ⟨o, rfl, hch⟩
        · intro; exact ⟨mergeInto dev now o, by simp⟩
      · exact ⟨mergeInto dev now o, Or.inr (Or.inr rfl)⟩
      · intro o' ho'; injection ho' with ho'; subst ho'
        intro hc; rw [hc] at hch; cases hch
    | false =>
      rw [updateDevice_eq_unchanged h hfind hch]
      refine ⟨?_, ?_, ?_, ?_, ?_⟩
      · simp [hfind]
      · simp only [List.not_mem_nil, exists_false, false_iff]
        rintro ⟨o', ho', hc⟩
        injection ho' with ho'; subst ho'
        rw [hc] at hch; cases hch
      · simp only [List.not_mem_nil, exists_false, false_iff]
        rintro (hn | ⟨o', ho', hc⟩)
        · cases hn
        · injection ho' with ho'; subst ho'
          rw [hc] at hch; cases hch
      · exact ⟨mkDevice uuid dev now, Or.inl rfl⟩
      · intro o' ho' hc
        injection ho' with ho'; subst ho'
        refine ⟨rfl, ?_⟩
        exact updateFirst_congr _ _ _ s.devices o hfind
          (by simpa using mergeInto_of_unchanged now hc)

/-- Witness for C7 at a concrete state: a fresh device is announced with
exactly the `device` and `device_online` events. -/
theorem c7_witness :
    ((∃ d, Ev.device_online d ∈
        (_updateDevice "u7" 5 { _devices := [("u7", c7Frag)], devices := [] }).2) ↔
      (List.find? (fun v => v.uuid == "u7") ([] : List Device) = none)) ∧
    ((∃ d, Ev.device_updated d ∈
        (_updateDevice "u7" 5 { _devices := [("u7", c7Frag)], devices := [] }).2) ↔
      ∃ o, List.find? (fun v => v.uuid == "u7") ([] : List Device) = some o ∧
        changedFields c7Frag o = true) ∧
    ((∃ d, Ev.device d ∈
        (_updateDevice "u7" 5 { _devices := [("u7", c7Frag)], devices := [] }).2) ↔
      (List.find? (fun v => v.uuid == "u7") ([] : List Device) = none ∨
       ∃ o, List.find? (fun v => v.uuid == "u7") ([] : List Device) = some o ∧
         changedFields c7Frag o = true)) ∧
    (∃ d, (_updateDevice "u7" 5 { _devices := [("u7", c7Frag)], devices := [] }).2 = [] ∨
          (_updateDevice "u7" 5 { _devices := [("u7", c7Frag)], devices := [] }).2 =
            [Ev.device d, Ev.device_online d] ∨
          (_updateDevice "u7" 5 { _devices := [("u7", c7Frag)], devices := [] }).2 =
            [Ev.device d, Ev.device_updated d]) ∧
    (∀ o, List.find? (fun v => v.uuid == "u7") ([] : List Device) = some o →
      changedFields c7Frag o = false →
      (_updateDevice "u7" 5 { _devices := [("u7", c7Frag)], devices := [] }).2 = [] ∧
      (_updateDevice "u7" 5 { _devices := [("u7", c7Frag)], devices := [] }).1.devices =
        updateFirst (fun v : Device => v.uuid == "u7")
          (fun v : Device => { v with lastSeen := 5 }) ([] : List Device)) :=
  c7_updateDevice_event_discipline "u7" 5
    { _devices := [("u7", c7Frag)], devices := [] } c7Frag (by decide)

/-! ### C5 — model-name precedence -/

/-- C5: once the staged fragment of an identifier carries a (truthy)
model name — as the SSDP description-document path leaves it — processing
any mDNS TXT answer changes neither that staged model name (the TXT
branch writes `modelName` only when it is unset, lines 285–287) nor the
model name of the identifier's public records (every record of the
identifier that carried the model name still carries it). -/
theorem c5_model_name_precedence (strategy rinfoAddr : String) (now : Nat)
    (name : String) (data : List (String × String)) (s : ClientState)
    (id : String) (frag : StagedDevice) (m : String)
    (hfrag : getKey s._devices id = some frag)
    (hm : frag.modelName = some m) (hm' : m ≠ "") :
    (∃ frag', getKey (stepAnswer strategy rinfoAddr now (.txt name data) s).1._devices id = some frag' ∧
        frag'.modelName = some m) ∧
    ((∀ r ∈ s.devices, r.uuid = id → r.modelName = some m) →
      ∀ r' ∈ (stepAnswer strategy rinfoAddr now (.txt name data) s).1.devices,
        r'.uuid = id → r'.modelName = some m) := by
  by_cases hu : parseUUID name = id
  · subst hu
    rw [stepAnswer_txt_eq hfrag]
    have hmodel : (applyTxt name data frag).modelName = some m := by
      rw [(applyTxt_fields name data frag).2.2.2.2.2, hm]
      simp [truthy, hm']
    by_cases hgate : announceGate (applyTxt name data frag) = true
    · rw [if_pos hgate]
      constructor
      · rw [updateDevice_devices_eq]
        exact ⟨applyTxt name data frag, getKey_setKey_self _ _ _, hmodel⟩
      · intro hall r' hr' hruuid
        rcases updateDevice_mem hr' with hr' | ⟨dev, hdev, hcase⟩
        · exact hall r' hr' hruuid
        · rw [getKey_setKey_self] at hdev
          injection hdev with hdev; subst hdev
          rcases hcase with hcase | ⟨o, _, _, hcase⟩
          · rw [hcase]; exact hmodel
          · rw [hcase]; exact hmodel
    · rw [if_neg hgate]
      constructor
      · exact ⟨applyTxt name data frag, getKey_setKey_self _ _ _, hmodel⟩
      · intro hall r' hr' hruuid
        exact hall r' hr' hruuid
  · cases hk : getKey s._devices (parseUUID name) with
    | none =>
      rw [stepAnswer_txt_none hk]
      exact ⟨⟨frag, hfrag, hm⟩, fun hall r' hr' hruuid => hall r' hr' hruuid⟩
    | some dev =>
      rw [stepAnswer_txt_eq hk]
      by_cases hgate : announceGate (applyTxt name data dev) = true
      · rw [if_pos hgate]
        constructor
        · rw [updateDevice_devices_eq]
          rw [getKey_setKey_ne _ _ _ _ hu]
          exact ⟨frag, hfrag, hm⟩
        · intro hall r' hr' hruuid
          rcases updateDevice_mem hr' with hr' | ⟨dev', hdev', hcase⟩
          · exact hall r' hr' hruuid
          · exfalso
            rcases hcase with hcase | ⟨o, _, ho, hcase⟩
            · rw [hcase] at hruuid
              exact hu hruuid
            · rw [hcase] at hruuid
              have : o.uuid = parseUUID name := by simpa using ho
              exact hu (this ▸ hruuid)
      · rw [if_neg hgate]
        constructor
        · rw [getKey_setKey_ne _ _ _ _ hu]
          exact ⟨frag, hfrag, hm⟩
        · intro hall r' hr' hruuid
          exact hall r' hr' hruuid

/-- Witness for C5 at a concrete state: a TXT answer carrying a
different `d` value does not displace the already-set model name. -/
theorem c5_witness :
    (∃ frag', getKey (stepAnswer "rinfo" "10.0.0.5" 9
        (.txt "u5" [("d", "Other Model")])
        { _devices := [("u5", c5Frag)], devices := [] }).1._devices "u5" =
          some frag' ∧
        frag'.modelName = some "Chromecast Ultra") ∧
    ((∀ r ∈ ([] : List Device), r.uuid = "u5" →
        r.modelName = some "Chromecast Ultra") →
      ∀ r' ∈ (stepAnswer "rinfo" "10.0.0.5" 9
          (.txt "u5" [("d", "Other Model")])
          { _devices := [("u5", c5Frag)], devices := [] }).1.devices,
        r'.uuid = "u5" → r'.modelName = some "Chromecast Ultra") :=
  c5_model_name_precedence "rinfo" "10.0.0.5" 9 "u5" [("d", "Other Model")]
    { _devices := [("u5", c5Frag)], devices := [] } "u5" c5Frag
    "Chromecast Ultra" (by decide) (by decide) (by decide)

/-! ### No-op and characterization lemmas for `stepSsdp` -/

theorem stepSsdp_noop_status {statusCode : Nat} {location : JsStr}
    {rinfoAddr : String} {desc : Option SsdpDevice} {now : Nat}
    {s : ClientState} (h : (statusCode != 200 || !truthy location) = true) :
    stepSsdp statusCode location rinfoAddr desc now s = (s, []) := by
  unfold stepSsdp
  rw [if_pos h]

theorem stepSsdp_none_desc {statusCode : Nat} {location : JsStr}
    {rinfoAddr : String} {now : Nat} {s : ClientState} :
    stepSsdp statusCode location rinfoAddr none now s = (s, []) := by
  unfold stepSsdp
  split <;> rfl

theorem stepSsdp_noop_gate2 {statusCode : Nat} {location : JsStr}
    {rinfoAddr : String} {d : SsdpDevice} {now : Nat} {s : ClientState}
    (h : (jsNeq d.deviceType (some SSDP_DEVICE_TYPE) || !truthy d.friendlyName) = true) :
    stepSsdp statusCode location rinfoAddr (some d) now s = (s, []) := by
  simp [stepSsdp, h]

theorem stepSsdp_noop_udn_none {statusCode : Nat} {location : JsStr}
    {rinfoAddr : String} {d : SsdpDevice} {now : Nat} {s : ClientState}
    (h : d.UDN = none) :
    stepSsdp statusCode location rinfoAddr (some d) now s = (s, []) := by
  simp [stepSsdp, h]

theorem stepSsdp_noop_udn_empty {statusCode : Nat} {location : JsStr}
    {rinfoAddr : String} {d : SsdpDevice} {now : Nat} {s : ClientState}
    (h : d.UDN = some "") :
    stepSsdp statusCode location rinfoAddr (some d) now s = (s, []) := by
  simp [stepSsdp, h]

/-- Every SSDP response is either a silent discard or, with all gates
passed, the new-fragment path or the merge path for the identifier
derived from the UDN. -/
theorem stepSsdp_char (statusCode : Nat) (location : JsStr)
    (rinfoAddr : String) (desc : Option SsdpDevice) (now : Nat)
    (s : ClientState) :
    stepSsdp statusCode location rinfoAddr desc now s = (s, []) ∨
    ∃ d udn, desc = some d ∧ statusCode = 200 ∧ truthy location = true ∧
      jsNeq d.deviceType (some SSDP_DEVICE_TYPE) = false ∧
      truthy d.friendlyName = true ∧ d.UDN = some udn ∧ udn ≠ "" ∧
      ((getKey s._devices (parseUUID (stripUdn udn)) = none ∧
        stepSsdp statusCode location rinfoAddr desc now s =
          _updateDevice (parseUUID (stripUdn udn)) now
            { s with _devices := setKey s._devices (parseUUID (stripUdn udn)) (ssdpNewFrag (synthDiscoveryName udn) rinfoAddr d) }) ∨
       (∃ dev, getKey s._devices (parseUUID (stripUdn udn)) = some dev ∧
        stepSsdp statusCode location rinfoAddr desc now s =
          _updateDevice (parseUUID (stripUdn udn)) now
            { s with _devices := setKey s._devices (parseUUID (stripUdn udn)) (applySsdpMerge (synthDiscoveryName udn) rinfoAddr d dev) })) := by
  by_cases hsc : statusCode = 200
  · subst hsc
    by_cases hloc : truthy location = true
    · cases desc with
      | none => exact Or.inl stepSsdp_none_desc
      | some d =>
        by_cases hdt : jsNeq d.deviceType (some SSDP_DEVICE_TYPE) = false
        · by_cases hfn : truthy d.friendlyName = true
          · cases hudn : d.UDN with
            | none => exact Or.inl (stepSsdp_noop_udn_none hudn)
            | some udn =>
              by_cases hu : udn = ""
              · subst hu
                exact Or.inl (stepSsdp_noop_udn_empty hudn)
              · cases hk : getKey s._devices (parseUUID (stripUdn udn)) with
                | none =>
                  exact Or.inr ⟨d, udn, rfl, rfl, hloc, hdt, hfn, hudn, hu,
                    Or.inl ⟨hk, stepSsdp_new_eq rfl hloc hdt hfn hudn hu hk⟩⟩
                | some dev =>
                  exact Or.inr ⟨d, udn, rfl, rfl, hloc, hdt, hfn, hudn, hu,
                    Or.inr ⟨dev, hk, stepSsdp_merge_eq rfl hloc hdt hfn hudn hu hk⟩⟩
          · refine Or.inl (stepSsdp_noop_gate2 ?_)
            simp [hfn]
        · refine Or.inl (stepSsdp_noop_gate2 ?_)
          simp only [Bool.or_eq_true]
          exact Or.inl (by simpa using hdt)
    · refine Or.inl (stepSsdp_noop_status ?_)
      simp [hloc]
  · refine Or.inl (stepSsdp_noop_status ?_)
    simp [bne_iff_ne, hsc]

theorem synthDiscoveryName_ne_empty (udn : String) :
    synthDiscoveryName udn ≠ "" := by
  intro h
  have h3 := congrArg String.data h
  simp [synthDiscoveryName, String.data_append] at h3

/-! ### C6 — discovery-name precedence -/

/-- C6: an SSDP response never replaces a truthy (mDNS-set) staged
discovery name — the merge writes it only when unset (lines 382–384) —
and when the staged discovery name is unset (or the identifier unseen)
while all SSDP gates pass, the fragment ends up with the synthesized
fallback `Chromecast-<stripped UDN>._googlecast._tcp.local` of
line 361. -/
theorem c6_discovery_name_precedence (statusCode : Nat) (location : JsStr)
    (rinfoAddr : String) (desc : Option SsdpDevice) (now : Nat)
    (s : ClientState) (id : String) :
    (∀ frag, getKey s._devices id = some frag →
      truthy frag.discoveryName = true →
      ∃ frag', getKey (stepSsdp statusCode location rinfoAddr desc now s).1._devices id = some frag' ∧
        frag'.discoveryName = frag.discoveryName) ∧
    (∀ d udn, statusCode = 200 → truthy location = true → desc = some d →
      jsNeq d.deviceType (some SSDP_DEVICE_TYPE) = false →
      truthy d.friendlyName = true → d.UDN = some udn → udn ≠ "" →
      parseUUID (stripUdn udn) = id →
      (∀ frag, getKey s._devices id = some frag →
        truthy frag.discoveryName = false) →
      ∃ frag', getKey (stepSsdp statusCode location rinfoAddr desc now s).1._devices id = some frag' ∧
        frag'.discoveryName = some (synthDiscoveryName udn)) := by
  constructor
  · intro frag hfrag htruthy
    rcases stepSsdp_char statusCode location rinfoAddr desc now s with
      heq | ⟨d, udn, hdesc, hsc, hloc, hdt, hfn, hudn, hu, hcase⟩
    · rw [heq]
      exact ⟨frag, hfrag, rfl⟩
    · by_cases hid : parseUUID (stripUdn udn) = id
      · rcases hcase with ⟨hk, heq⟩ | ⟨dev, hk, heq⟩
        · rw [hid] at hk
          rw [hk] at hfrag
          cases hfrag
        · rw [hid] at hk
          rw [hk] at hfrag
          injection hfrag with hfrag; subst hfrag
          rw [heq, updateDevice_devices_eq, hid, getKey_setKey_self]
          refine ⟨_, rfl, ?_⟩
          rw [(applySsdpMerge_fields (synthDiscoveryName udn) rinfoAddr d dev).2.1]
          simp [htruthy]
      · rcases hcase with ⟨hk, heq⟩ | ⟨dev, hk, heq⟩ <;>
          rw [heq, updateDevice_devices_eq, getKey_setKey_ne _ _ _ _ hid] <;>
          exact ⟨frag, hfrag, rfl⟩
  · intro d udn hsc hloc hdesc hdt hfn hudn hu hid hunset
    subst hdesc
    subst hid
    cases hk : getKey s._devices (parseUUID (stripUdn udn)) with
    | none =>
      rw [stepSsdp_new_eq hsc hloc hdt hfn hudn hu hk,
        updateDevice_devices_eq, getKey_setKey_self]
      exact ⟨_, rfl, rfl⟩
    | some dev =>
      have hfalse : truthy dev.discoveryName = false := hunset dev hk
      rw [stepSsdp_merge_eq hsc hloc hdt hfn hudn hu hk,
        updateDevice_devices_eq, getKey_setKey_self]
      refine ⟨_, rfl, ?_⟩
      rw [(applySsdpMerge_fields (synthDiscoveryName udn) rinfoAddr d dev).2.1]
      have htr : truthy (some (synthDiscoveryName udn)) = true := by
        simp [truthy, synthDiscoveryName_ne_empty udn]
      simp [hfalse, htr]

/-- Witness for C6 at a concrete state (spec scenario 2): for an unseen
identifier, an SSDP response that passes all gates installs the
synthesized discovery name on the staged fragment. -/
theorem c6_witness :
    ∃ frag', getKey (stepSsdp 200
        (some "http://10.0.0.7/ssdp/device-desc.xml") "10.0.0.7"
        (some c6Desc) 3 initState).1._devices
        "1111222233334444555566667777" = some frag' ∧
      frag'.discoveryName =
        some (synthDiscoveryName "uuid:1111-2222-3333-4444-555566667777") :=
  (c6_discovery_name_precedence 200
      (some "http://10.0.0.7/ssdp/device-desc.xml") "10.0.0.7"
      (some c6Desc) 3 initState "1111222233334444555566667777").2
    c6Desc "uuid:1111-2222-3333-4444-555566667777" rfl (by decide) rfl
    (by decide) (by decide) (by decide) (by decide) (by decide)
    (by intro frag hfrag; simp [initState, getKey] at hfrag)

/-! ### Per-step characterizations and preservation lemmas -/

/-- Every mDNS answer either leaves the public registry untouched or
runs one reconciliation whose staged fragment passed the announce
gate. -/
theorem stepAnswer_char (strategy rinfoAddr : String) (now : Nat)
    (a : Answer) (s : ClientState) :
    (stepAnswer strategy rinfoAddr now a s).1.devices = s.devices ∨
    ∃ uuid dev, announceGate dev = true ∧
      stepAnswer strategy rinfoAddr now a s =
        _updateDevice uuid now { s with _devices := setKey s._devices uuid dev } := by
  cases a with
  | ptr name data =>
    by_cases hn : name = "_googlecast._tcp.local"
    · subst hn
      cases hk : getKey s._devices (parseUUID data) with
      | none =>
        left
        rw [stepAnswer_ptr_new hk]
      | some dev =>
        by_cases hg : announceGate (applyPtr data dev) = true
        · right
          exact ⟨parseUUID data, applyPtr data dev, hg,
            by rw [stepAnswer_ptr_existing hk, if_pos hg]⟩
        · left
          rw [stepAnswer_ptr_existing hk, if_neg hg]
    · left
      rw [stepAnswer_ptr_skip hn]
  | srv name target =>
    cases hk : getKey s._devices (parseUUID name) with
    | none =>
      left
      rw [stepAnswer_srv_none hk]
    | some dev =>
      by_cases hg : announceGate (applySrv strategy rinfoAddr name target dev) = true
      · right
        exact ⟨parseUUID name, applySrv strategy rinfoAddr name target dev, hg,
          by rw [stepAnswer_srv_eq hk, if_pos hg]⟩
      · left
        rw [stepAnswer_srv_eq hk, if_neg hg]
  | txt name data =>
    cases hk : getKey s._devices (parseUUID name) with
    | none =>
      left
      rw [stepAnswer_txt_none hk]
    | some dev =>
      by_cases hg : announceGate (applyTxt name data dev) = true
      · right
        exact ⟨parseUUID name, applyTxt name data dev, hg,
          by rw [stepAnswer_txt_eq hk, if_pos hg]⟩
      · left
        rw [stepAnswer_txt_eq hk, if_neg hg]

/-- Reconciliation of a gate-passing fragment preserves the registry
invariant that every record has a truthy host and friendly name. -/
theorem updateDevice_inv {uuid : String} {now : Nat} {s : ClientState}
    (hInv : ∀ r ∈ s.devices, truthy r.host = true ∧ truthy r.friendlyName = true)
    (hdev : ∀ dev, getKey s._devices uuid = some dev →
      truthy dev.host = true ∧ truthy dev.friendlyName = true) :
    ∀ r' ∈ (_updateDevice uuid now s).1.devices,
      truthy r'.host = true ∧ truthy r'.friendlyName = true := by
  intro r' hr'
  rcases updateDevice_mem hr' with h | ⟨dev, hg, hcase⟩
  · exact hInv r' h
  · rcases hdev dev hg with ⟨hh, hf⟩
    rcases hcase with rfl | ⟨o, _, _, rfl⟩
    · exact ⟨hh, hf⟩
    · exact ⟨hh, hf⟩

theorem updateFirst_map {α β : Type} (p : α → Bool) (f : α → α) (g : α → β)
    (hf : ∀ v, p v = true → g (f v) = g v) :
    ∀ l : List α, (updateFirst p f l).map g = l.map g := by
  intro l
  induction l with
  | nil => rfl
  | cons a t ih =>
    by_cases hp : p a = true
    · simp [updateFirst, hp, hf a hp]
    · simp [updateFirst, hp, ih]

/-- Reconciliation either keeps the registry's identifier sequence or
appends the reconciled identifier, the latter only when no record with
that identifier existed. -/
theorem updateDevice_uuids {uuid : String} {now : Nat} {s : ClientState} :
    ((_updateDevice uuid now s).1.devices.map Device.uuid = s.devices.map Device.uuid) ∨
    (s.devices.find? (fun v => v.uuid == uuid) = none ∧
     (_updateDevice uuid now s).1.devices.map Device.uuid =
       s.devices.map Device.uuid ++ [uuid]) := by
  cases hg : getKey s._devices uuid with
  | none =>
    left
    rw [updateDevice_eq_noStaged hg]
  | some dev =>
    cases hfind : s.devices.find? (fun v => v.uuid == uuid) with
    | none =>
      right
      refine ⟨rfl, ?_⟩
      rw [updateDevice_eq_new hg hfind]
      simp [mkDevice]
    | some o =>
      left
      have hp' := List.find?_some hfind
      have hp : (o.uuid == uuid) = true := hp'
      have ho : o.uuid = uuid := by simpa using hp
      have hmap : ∀ v : Device, (v.uuid == uuid) = true →
          (mergeInto dev now o).uuid = v.uuid := by
        intro v hv
        have : v.uuid = uuid := by simpa using hv
        rw [this]
        exact ho
      by_cases hch : changedFields dev o = true
      · rw [updateDevice_eq_changed hg hfind hch]
        exact updateFirst_map _ _ _ hmap s.devices
      · rw [updateDevice_eq_unchanged hg hfind (by simpa using hch)]
        exact updateFirst_map _ _ _ hmap s.devices

/-- Reconciliation preserves per-identifier uniqueness of the registry. -/
theorem updateDevice_nodup {uuid : String} {now : Nat} {s : ClientState}
    (h : (s.devices.map Device.uuid).Nodup) :
    ((_updateDevice uuid now s).1.devices.map Device.uuid).Nodup := by
  rcases @updateDevice_uuids uuid now s with
    heq | ⟨hfind, heq⟩
  · rw [heq]; exact h
  · rw [heq]
    rw [List.nodup_append]
    refine ⟨h, by simp, ?_⟩
    intro a ha hb
    simp only [List.mem_singleton] at hb
    subst hb
    obtain ⟨v, hv, hvu⟩ := List.mem_map.mp ha
    have := List.find?_eq_none.mp hfind v hv
    simp [hvu] at this

/-- One GC tick only removes registry entries: the surviving list is a
sublist of the original. -/
theorem gcIter_sublist (threshold now : Nat) :
    ∀ (steps k : Nat) (st : List (String × StagedDevice)) (ds : List Device),
      (gcIter threshold now k steps st ds).2.1.Sublist ds := by
  intro steps
  induction steps with
  | zero => intro k st ds; simp [gcIter]
  | succ n ih =>
    intro k st ds
    cases hds : ds[k]? with
    | none =>
      simp only [gcIter, hds]
      exact ih (k + 1) st ds
    | some d =>
      by_cases hc : gcCollect threshold now d = true
      · simp only [gcIter, hds, hc, if_true]
        exact (ih (k + 1) _ _).trans (List.eraseIdx_sublist ds k)
      · simp only [gcIter, hds, hc, if_false]
        exact ih (k + 1) st ds

/-! ### C4 — announceability invariant -/

/-- Preservation of the truthy host/friendly-name registry invariant by
a single stimulus. -/
theorem step_preserves_announceInv (cfg : Config) (now : Nat) (i : Input)
    (s : ClientState) (hok : ssdpAddrOk (now, i) = true)
    (hInv : ∀ r ∈ s.devices, truthy r.host = true ∧ truthy r.friendlyName = true) :
    ∀ r ∈ (step cfg now i s).1.devices,
      truthy r.host = true ∧ truthy r.friendlyName = true := by
  cases i with
  | mdns addr a =>
    simp only [step]
    rcases stepAnswer_char cfg.mdns_host_stategy addr now a s with
      heq | ⟨uuid, dev, hg, heq⟩
    · rw [heq]; exact hInv
    · rw [heq]
      refine updateDevice_inv (fun r hr => hInv r hr) ?_
      intro dev' hdev'
      rw [getKey_setKey_self] at hdev'
      injection hdev' with hdev'
      subst hdev'
      exact by simpa [announceGate] using hg
  | ssdp sc loc addr desc =>
    have haddr : addr ≠ "" := by simpa [ssdpAddrOk, bne_iff_ne] using hok
    simp only [step]
    rcases stepSsdp_char sc loc addr desc now s with
      heq | ⟨d, udn, hdesc, hsc, hloc, hdt, hfn, hudn, hu, hcase⟩
    · rw [heq]; exact hInv
    · rcases hcase with ⟨hk, heq⟩ | ⟨dev, hk, heq⟩
      · rw [heq]
        refine updateDevice_inv (fun r hr => hInv r hr) ?_
        intro dev' hdev'
        rw [getKey_setKey_self] at hdev'
        injection hdev' with hdev'
        subst hdev'
        constructor
        · simp [ssdpNewFrag, truthy, haddr]
        · simpa [ssdpNewFrag] using hfn
      · rw [heq]
        refine updateDevice_inv (fun r hr => hInv r hr) ?_
        intro dev' hdev'
        rw [getKey_setKey_self] at hdev'
        injection hdev' with hdev'
        subst hdev'
        constructor
        · rw [(applySsdpMerge_fields (synthDiscoveryName udn) addr d dev).2.2.2.1]
          simp [haddr, truthy]
        · rw [(applySsdpMerge_fields (synthDiscoveryName udn) addr d dev).2.2.1]
          simp [hfn]
  | gc =>
    simp only [step, gcTick]
    intro r hr
    exact hInv r ((gcIter_sublist cfg.gc_threshold now _ _ _ _).subset hr)

/-- C4: under the assumption that every SSDP response carries a nonempty
responder address, every record ever present in the public registry of a
reachable state has a truthy host and a truthy friendly name — records
are created (and kept) only after both were observed, never earlier. -/
theorem c4_announceable_invariant (cfg : Config)
    (trace : List (Nat × Input))
    (haddr : ∀ p ∈ trace, ssdpAddrOk p = true) :
    ∀ r ∈ (run cfg trace initState).devices,
      truthy r.host = true ∧ truthy r.friendlyName = true := by
  suffices h : ∀ (t : List (Nat × Input)) (s : ClientState),
      (∀ p ∈ t, ssdpAddrOk p = true) →
      (∀ r ∈ s.devices, truthy r.host = true ∧ truthy r.friendlyName = true) →
      ∀ r ∈ (run cfg t s).devices,
        truthy r.host = true ∧ truthy r.friendlyName = true by
    exact h trace initState haddr (by simp [initState])
  intro t
  induction t with
  | nil =>
    intro s _ hInv
    simpa [run] using hInv
  | cons p rest ih =>
    intro s hok hInv
    obtain ⟨now, i⟩ := p
    simp only [run]
    exact ih _ (fun q hq => hok q (List.mem_cons_of_mem _ hq))
      (step_preserves_announceInv cfg now i s (hok _ (List.mem_cons_self _ _)) hInv)

/-- Witness for C4: the PTR/SRV/TXT scenario of spec scenario 1 — every
stimulus satisfies the responder-address assumption, and the single
resulting record, a member of the final registry, has truthy host and
friendly name. -/
theorem c4_witness :
    (∀ p ∈ ([(10, Input.mdns "10.0.0.5" (.ptr "_googlecast._tcp.local"
          "Chromecast-aaaaaaaaaaaaaaaaaaaaaaaaaaaaaaaa._googlecast._tcp.local")),
       (11, Input.mdns "10.0.0.5" (.srv
          "Chromecast-aaaaaaaaaaaaaaaaaaaaaaaaaaaaaaaa._googlecast._tcp.local"
          "device.local")),
       (12, Input.mdns "10.0.0.5" (.txt
          "Chromecast-aaaaaaaaaaaaaaaaaaaaaaaaaaaaaaaa._googlecast._tcp.local"
          [("fn", "Living Room TV")]))] : List (Nat × Input)),
      ssdpAddrOk p = true) ∧
    (truthy ({ uuid := "aaaaaaaaaaaaaaaaaaaaaaaaaaaaaaaa",
               name := some "Chromecast-aaaaaaaaaaaaaaaaaaaaaaaaaaaaaaaa._googlecast._tcp.local",
               friendlyName := some "Living Room TV", host := some "10.0.0.5",
               manufacturer := none, modelName := none, lastSeen := 12 } : Device).host = true ∧
      truthy ({ uuid := "aaaaaaaaaaaaaaaaaaaaaaaaaaaaaaaa",
                name := some "Chromecast-aaaaaaaaaaaaaaaaaaaaaaaaaaaaaaaa._googlecast._tcp.local",
                friendlyName := some "Living Room TV", host := some "10.0.0.5",
                manufacturer := none, modelName := none, lastSeen := 12 } : Device).friendlyName = true) :=
  ⟨by decide,
    c4_announceable_invariant { mdns_host_stategy := "rinfo", gc_threshold := 0 }
      [(10, Input.mdns "10.0.0.5" (.ptr "_googlecast._tcp.local"
          "Chromecast-aaaaaaaaaaaaaaaaaaaaaaaaaaaaaaaa._googlecast._tcp.local")),
       (11, Input.mdns "10.0.0.5" (.srv
          "Chromecast-aaaaaaaaaaaaaaaaaaaaaaaaaaaaaaaa._googlecast._tcp.local"
          "device.local")),
       (12, Input.mdns "10.0.0.5" (.txt
          "Chromecast-aaaaaaaaaaaaaaaaaaaaaaaaaaaaaaaa._googlecast._tcp.local"
          [("fn", "Living Room TV")]))]
      (by decide)
      { uuid := "aaaaaaaaaaaaaaaaaaaaaaaaaaaaaaaa",
        name := some "Chromecast-aaaaaaaaaaaaaaaaaaaaaaaaaaaaaaaa._googlecast._tcp.local",
        friendlyName := some "Living Room TV", host := some "10.0.0.5",
        manufacturer := none, modelName := none, lastSeen := 12 }
      (by decide)⟩

/-! ### C10 — registry uniqueness -/

/-- Preservation of per-identifier uniqueness by a single stimulus. -/
theorem step_preserves_nodup (cfg : Config) (now : Nat) (i : Input)
    (s : ClientState) (h : (s.devices.map Device.uuid).Nodup) :
    (((step cfg now i s).1.devices).map Device.uuid).Nodup := by
  cases i with
  | mdns addr a =>
    simp only [step]
    rcases stepAnswer_char cfg.mdns_host_stategy addr now a s with
      heq | ⟨uuid, dev, _, heq⟩
    · rw [heq]; exact h
    · rw [heq]
      exact updateDevice_nodup h
  | ssdp sc loc addr desc =>
    simp only [step]
    rcases stepSsdp_char sc loc addr desc now s with
      heq | ⟨d, udn, hdesc, hsc, hloc, hdt, hfn, hudn, hu, hcase⟩
    · rw [heq]; exact h
    · rcases hcase with ⟨hk, heq⟩ | ⟨dev, hk, heq⟩ <;> rw [heq] <;>
        exact updateDevice_nodup h
  | gc =>
    simp only [step, gcTick]
    exact h.sublist ((gcIter_sublist cfg.gc_threshold now _ _ _ _).map Device.uuid)

/-- C10: in every reachable state the public registry holds at most one
record per identifier — reconciliation pushes only when lookup finds no
record with the identifier and otherwise mutates the found record in
place, and garbage collection only removes records. -/
theorem c10_registry_uuid_unique (cfg : Config)
    (trace : List (Nat × Input)) :
    (((run cfg trace initState).devices).map Device.uuid).Nodup := by
  suffices h : ∀ (t : List (Nat × Input)) (s : ClientState),
      ((s.devices).map Device.uuid).Nodup →
      (((run cfg t s).devices).map Device.uuid).Nodup by
    exact h trace initState (by simp [initState])
  intro t
  induction t with
  | nil =>
    intro s hInv
    simpa [run] using hInv
  | cons p rest ih =>
    intro s hInv
    obtain ⟨now, i⟩ := p
    simp only [run]
    exact ih _ (step_preserves_nodup cfg now i s hInv)

theorem hexRun_iff (n : Nat) : ∀ l : List Char, hexRun n l = true ↔
    ∃ h t, l = h ++ t ∧ h.length = n ∧ isHexList h = true := by
  induction n with
  | zero =>
    intro l
    constructor
    · intro _
      exact ⟨[], l, rfl, rfl, rfl⟩
    · intro _
      rfl
  | succ n ih =>
    intro l
    cases l with
    | nil =>
      constructor
      · intro h
        simp [hexRun] at h
      · rintro ⟨h, t, heq, hlen, -⟩
        cases h with
        | nil => simp at hlen
        | cons a b => simp at heq
    | cons c rest =>
      constructor
      · intro hrun
        simp only [hexRun, Bool.and_eq_true] at hrun
        obtain ⟨hc, hrest⟩ := hrun
        obtain ⟨h, t, heq, hlen, hhex⟩ := (ih rest).mp hrest
        refine ⟨c :: h, t, ?_, ?_, ?_⟩
        · rw [heq]; rfl
        · simp [hlen]
        · simp [isHexList, hc]
          simpa [isHexList] using hhex
      · rintro ⟨h, t, heq, hlen, hhex⟩
        cases h with
        | nil => simp at hlen
        | cons a h' =>
          injection heq with h1 h2
          subst h1
          simp only [isHexList, List.all_cons, Bool.and_eq_true] at hhex
          simp only [hexRun, Bool.and_eq_true]
          exact ⟨hhex.1, (ih rest).mpr ⟨h', t, h2,
            by simpa using hlen, hhex.2⟩⟩

theorem specHyphenUuid_length {m : List Char} (h : SpecHyphenUuid m) :
    m.length = 36 := by
  obtain ⟨g1, g2, g3, g4, g5, h1, h2, h3, h4, h5, -, -, -, -, -, rfl⟩ := h
  simp [h1, h2, h3, h4, h5]

theorem matchesUuidAt_iff (l : List Char) :
    matchesUuidAt l = true ↔ ∃ m t, l = m ++ t ∧ SpecHyphenUuid m := by
  constructor
  · intro h
    simp only [matchesUuidAt, Bool.and_eq_true] at h
    obtain ⟨⟨⟨⟨⟨⟨⟨⟨h1, h2⟩, h3⟩, h4⟩, h5⟩, h6⟩, h7⟩, h8⟩, h9⟩ := h
    obtain ⟨g1, r1, hl1, hlen1, hhex1⟩ := (hexRun_iff 8 l).mp h1
    have hd8 : l.drop 8 = r1 := by rw [hl1, ← hlen1, List.drop_left]
    rw [hd8] at h2
    cases r1 with
    | nil => simp [startsWithDash] at h2
    | cons c1 r2 =>
    have hc1 : c1 = '-' := by simpa [startsWithDash] using h2
    subst hc1
    have hd9 : l.drop 9 = r2 := by
      have e : (l.drop 8).drop 1 = l.drop 9 := by rw [List.drop_drop]
      rw [← e, hd8]; simp
    rw [hd9] at h3
    obtain ⟨g2, r3, hl2, hlen2, hhex2⟩ := (hexRun_iff 4 r2).mp h3
    have hd13 : l.drop 13 = r3 := by
      have e : (l.drop 9).drop 4 = l.drop 13 := by rw [List.drop_drop]
      rw [← e, hd9, hl2, ← hlen2, List.drop_left]
    rw [hd13] at h4
    cases r3 with
    | nil => simp [startsWithDash] at h4
    | cons c2 r4 =>
    have hc2 : c2 = '-' := by simpa [startsWithDash] using h4
    subst hc2
    have hd14 : l.drop 14 = r4 := by
      have e : (l.drop 13).drop 1 = l.drop 14 := by rw [List.drop_drop]
      rw [← e, hd13]; simp
    rw [hd14] at h5
    obtain ⟨g3, r5, hl3, hlen3, hhex3⟩ := (hexRun_iff 4 r4).mp h5
    have hd18 : l.drop 18 = r5 := by
      have e : (l.drop 14).drop 4 = l.drop 18 := by rw [List.drop_drop]
      rw [← e, hd14, hl3, ← hlen3, List.drop_left]
    rw [hd18] at h6
    cases r5 with
    | nil => simp [startsWithDash] at h6
    | cons c3 r6 =>
    have hc3 : c3 = '-' := by simpa [startsWithDash] using h6
    subst hc3
    have hd19 : l.drop 19 = r6 := by
      have e : (l.drop 18).drop 1 = l.drop 19 := by rw [List.drop_drop]
      rw [← e, hd18]; simp
    rw [hd19] at h7
    obtain ⟨g4, r7, hl4, hlen4, hhex4⟩ := (hexRun_iff 4 r6).mp h7
    have hd23 : l.drop 23 = r7 := by
      have e : (l.drop 19).drop 4 = l.drop 23 := by rw [List.drop_drop]
      rw [← e, hd19, hl4, ← hlen4, List.drop_left]
    rw [hd23] at h8
    cases r7 with
    | nil => simp [startsWithDash] at h8
    | cons c4 r8 =>
    have hc4 : c4 = '-' := by simpa [startsWithDash] using h8
    subst hc4
    have hd24 : l.drop 24 = r8 := by
      have e : (l.drop 23).drop 1 = l.drop 24 := by rw [List.drop_drop]
      rw [← e, hd23]; simp
    rw [hd24] at h9
    obtain ⟨g5, r9, hl5, hlen5, hhex5⟩ := (hexRun_iff 12 r8).mp h9
    refine ⟨g1 ++ '-' :: (g2 ++ '-' :: (g3 ++ '-' :: (g4 ++ '-' :: g5))), r9,
      ?_, g1, g2, g3, g4, g5, hlen1, hlen2, hlen3, hlen4, hlen5,
      hhex1, hhex2, hhex3, hhex4, hhex5, rfl⟩
    rw [hl1, hl2, hl3, hl4, hl5]
    simp [List.append_assoc]
  · rintro ⟨m, t, heq, g1, g2, g3, g4, g5, hlen1, hlen2, hlen3, hlen4, hlen5,
      hhex1, hhex2, hhex3, hhex4, hhex5, hm⟩
    subst hm
    subst heq
    have hR : (g1 ++ '-' :: (g2 ++ '-' :: (g3 ++ '-' :: (g4 ++ '-' :: g5)))) ++ t =
        g1 ++ '-' :: (g2 ++ '-' :: (g3 ++ '-' :: (g4 ++ '-' :: (g5 ++ t)))) := by
      simp [List.append_assoc]
    rw [hR]
    have hd8 : (g1 ++ '-' :: (g2 ++ '-' :: (g3 ++ '-' :: (g4 ++ '-' :: (g5 ++ t))))).drop 8 =
        '-' :: (g2 ++ '-' :: (g3 ++ '-' :: (g4 ++ '-' :: (g5 ++ t)))) := by
      rw [← hlen1, List.drop_left]
    have hd9 : (g1 ++ '-' :: (g2 ++ '-' :: (g3 ++ '-' :: (g4 ++ '-' :: (g5 ++ t))))).drop 9 =
        g2 ++ '-' :: (g3 ++ '-' :: (g4 ++ '-' :: (g5 ++ t))) := by
      have e : ((g1 ++ '-' :: (g2 ++ '-' :: (g3 ++ '-' :: (g4 ++ '-' :: (g5 ++ t))))).drop 8).drop 1 =
          (g1 ++ '-' :: (g2 ++ '-' :: (g3 ++ '-' :: (g4 ++ '-' :: (g5 ++ t))))).drop 9 := by
        rw [List.drop_drop]
      rw [← e, hd8]; simp
    have hd13 : (g1 ++ '-' :: (g2 ++ '-' :: (g3 ++ '-' :: (g4 ++ '-' :: (g5 ++ t))))).drop 13 =
        '-' :: (g3 ++ '-' :: (g4 ++ '-' :: (g5 ++ t))) := by
      have e : ((g1 ++ '-' :: (g2 ++ '-' :: (g3 ++ '-' :: (g4 ++ '-' :: (g5 ++ t))))).drop 9).drop 4 =
          (g1 ++ '-' :: (g2 ++ '-' :: (g3 ++ '-' :: (g4 ++ '-' :: (g5 ++ t))))).drop 13 := by
        rw [List.drop_drop]
      rw [← e, hd9, ← hlen2, List.drop_left]
    have hd14 : (g1 ++ '-' :: (g2 ++ '-' :: (g3 ++ '-' :: (g4 ++ '-' :: (g5 ++ t))))).drop 14 =
        g3 ++ '-' :: (g4 ++ '-' :: (g5 ++ t)) := by
      have e : ((g1 ++ '-' :: (g2 ++ '-' :: (g3 ++ '-' :: (g4 ++ '-' :: (g5 ++ t))))).drop 13).drop 1 =
          (g1 ++ '-' :: (g2 ++ '-' :: (g3 ++ '-' :: (g4 ++ '-' :: (g5 ++ t))))).drop 14 := by
        rw [List.drop_drop]
      rw [← e, hd13]; simp
    have hd18 : (g1 ++ '-' :: (g2 ++ '-' :: (g3 ++ '-' :: (g4 ++ '-' :: (g5 ++ t))))).drop 18 =
        '-' :: (g4 ++ '-' :: (g5 ++ t)) := by
      have e : ((g1 ++ '-' :: (g2 ++ '-' :: (g3 ++ '-' :: (g4 ++ '-' :: (g5 ++ t))))).drop 14).drop 4 =
          (g1 ++ '-' :: (g2 ++ '-' :: (g3 ++ '-' :: (g4 ++ '-' :: (g5 ++ t))))).drop 18 := by
        rw [List.drop_drop]
      rw [← e, hd14, ← hlen3, List.drop_left]
    have hd19 : (g1 ++ '-' :: (g2 ++ '-' :: (g3 ++ '-' :: (g4 ++ '-' :: (g5 ++ t))))).drop 19 =
        g4 ++ '-' :: (g5 ++ t) := by
      have e : ((g1 ++ '-' :: (g2 ++ '-' :: (g3 ++ '-' :: (g4 ++ '-' :: (g5 ++ t))))).drop 18).drop 1 =
          (g1 ++ '-' :: (g2 ++ '-' :: (g3 ++ '-' :: (g4 ++ '-' :: (g5 ++ t))))).drop 19 := by
        rw [List.drop_drop]
      rw [← e, hd18]; simp
    have hd23 : (g1 ++ '-' :: (g2 ++ '-' :: (g3 ++ '-' :: (g4 ++ '-' :: (g5 ++ t))))).drop 23 =
        '-' :: (g5 ++ t) := by
      have e : ((g1 ++ '-' :: (g2 ++ '-' :: (g3 ++ '-' :: (g4 ++ '-' :: (g5 ++ t))))).drop 19).drop 4 =
          (g1 ++ '-' :: (g2 ++ '-' :: (g3 ++ '-' :: (g4 ++ '-' :: (g5 ++ t))))).drop 23 := by
        rw [List.drop_drop]
      rw [← e, hd19, ← hlen4, List.drop_left]
    have hd24 : (g1 ++ '-' :: (g2 ++ '-' :: (g3 ++ '-' :: (g4 ++ '-' :: (g5 ++ t))))).drop 24 =
        g5 ++ t := by
      have e : ((g1 ++ '-' :: (g2 ++ '-' :: (g3 ++ '-' :: (g4 ++ '-' :: (g5 ++ t))))).drop 23).drop 1 =
          (g1 ++ '-' :: (g2 ++ '-' :: (g3 ++ '-' :: (g4 ++ '-' :: (g5 ++ t))))).drop 24 := by
        rw [List.drop_drop]
      rw [← e, hd23]; simp
    simp only [matchesUuidAt, Bool.and_eq_true]
    refine ⟨⟨⟨⟨⟨⟨⟨⟨?_, ?_⟩, ?_⟩, ?_⟩, ?_⟩, ?_⟩, ?_⟩, ?_⟩, ?_⟩
    · exact (hexRun_iff 8 _).mpr ⟨g1, _, rfl, hlen1, hhex1⟩
    · rw [hd8]; simp [startsWithDash]
    · rw [hd9]; exact (hexRun_iff 4 _).mpr ⟨g2, _, rfl, hlen2, hhex2⟩
    · rw [hd13]; simp [startsWithDash]
    · rw [hd14]; exact (hexRun_iff 4 _).mpr ⟨g3, _, rfl, hlen3, hhex3⟩
    · rw [hd18]; simp [startsWithDash]
    · rw [hd19]; exact (hexRun_iff 4 _).mpr ⟨g4, _, rfl, hlen4, hhex4⟩
    · rw [hd23]; simp [startsWithDash]
    · rw [hd24]; exact (hexRun_iff 12 _).mpr ⟨g5, _, rfl, hlen5, hhex5⟩

theorem findUuidMatch_some :
    ∀ {l m : List Char}, findUuidMatch l = some m →
      (∃ pre t, l = pre ++ (m ++ t)) ∧ SpecHyphenUuid m := by
  intro l
  induction l with
  | nil => intro m h; simp [findUuidMatch] at h
  | cons c rest ih =>
    intro m h
    by_cases hm : matchesUuidAt (c :: rest) = true
    · rw [findUuidMatch, if_pos hm] at h
      injection h with h
      obtain ⟨m', t, heq, hspec⟩ := (matchesUuidAt_iff (c :: rest)).mp hm
      have hlen : m'.length = 36 := specHyphenUuid_length hspec
      have htake : (c :: rest).take 36 = m' := by
        rw [heq, ← hlen, List.take_left]
      rw [htake] at h
      subst h
      exact ⟨⟨[], t, by rw [heq]; rfl⟩, hspec⟩
    · rw [findUuidMatch, if_neg hm] at h
      obtain ⟨⟨pre, t, heq⟩, hspec⟩ := ih h
      exact ⟨⟨c :: pre, t, by rw [heq]; rfl⟩, hspec⟩

theorem findUuidMatch_none :
    ∀ {l : List Char}, findUuidMatch l = none →
      ¬ ∃ pre mid t, l = pre ++ (mid ++ t) ∧ SpecHyphenUuid mid := by
  intro l
  induction l with
  | nil =>
    rintro - ⟨pre, mid, t, heq, hspec⟩
    have hlen := specHyphenUuid_length hspec
    have : pre = [] ∧ mid ++ t = [] := by
      cases pre with
      | nil => exact ⟨rfl, heq.symm⟩
      | cons a b => simp at heq
    rcases this with ⟨-, hmt⟩
    have : mid = [] := by
      cases mid with
      | nil => rfl
      | cons a b => simp at hmt
    rw [this] at hlen
    simp at hlen
  | cons c rest ih =>
    intro h
    by_cases hm : matchesUuidAt (c :: rest) = true
    · rw [findUuidMatch, if_pos hm] at h
      cases h
    · rw [findUuidMatch, if_neg hm] at h
      rintro ⟨pre, mid, t, heq, hspec⟩
      cases pre with
      | nil =>
        exact hm ((matchesUuidAt_iff (c :: rest)).mpr ⟨mid, t, heq, hspec⟩)
      | cons c' pre' =>
        injection heq with h1 h2
        exact ih h ⟨pre', mid, t, h2, hspec⟩

theorem find32Match_some :
    ∀ {l m : List Char}, find32Match l = some m →
      (∃ pre t, l = pre ++ (m ++ t)) ∧ Spec32Hex m := by
  intro l
  induction l with
  | nil => intro m h; simp [find32Match] at h
  | cons c rest ih =>
    intro m h
    by_cases hm : hexRun 32 (c :: rest) = true
    · rw [find32Match, if_pos hm] at h
      injection h with h
      obtain ⟨m', t, heq, hlen, hhex⟩ := (hexRun_iff 32 (c :: rest)).mp hm
      have htake : (c :: rest).take 32 = m' := by
        rw [heq, ← hlen, List.take_left]
      rw [htake] at h
      subst h
      exact ⟨⟨[], t, by rw [heq]; rfl⟩, hlen, hhex⟩
    · rw [find32Match, if_neg hm] at h
      obtain ⟨⟨pre, t, heq⟩, hspec⟩ := ih h
      exact ⟨⟨c :: pre, t, by rw [heq]; rfl⟩, hspec⟩

theorem find32Match_none :
    ∀ {l : List Char}, find32Match l = none →
      ¬ ∃ pre mid t, l = pre ++ (mid ++ t) ∧ Spec32Hex mid := by
  intro l
  induction l with
  | nil =>
    rintro - ⟨pre, mid, t, heq, hlen, -⟩
    have : pre = [] ∧ mid ++ t = [] := by
      cases pre with
      | nil => exact ⟨rfl, heq.symm⟩
      | cons a b => simp at heq
    rcases this with ⟨-, hmt⟩
    have : mid = [] := by
      cases mid with
      | nil => rfl
      | cons a b => simp at hmt
    rw [this] at hlen
    simp at hlen
  | cons c rest ih =>
    intro h
    by_cases hm : hexRun 32 (c :: rest) = true
    · rw [find32Match, if_pos hm] at h
      cases h
    · rw [find32Match, if_neg hm] at h
      rintro ⟨pre, mid, t, heq, hspec⟩
      cases pre with
      | nil =>
        exact hm ((hexRun_iff 32 (c :: rest)).mpr ⟨mid, t, heq, hspec.1, hspec.2⟩)
      | cons c' pre' =>
        injection heq with h1 h2
        exact ih h ⟨pre', mid, t, h2, hspec⟩

/-! ### C3 — amended identifier-normalizer contract -/

/-- C3 (amended): `parseUUID` (1) on a string containing the spec's
hyphenated 8-4-4-4-12 hex pattern returns a contained match with only
its *first* hyphen removed (case preserved); (2) else, on a string
containing a bare 32-hex run, returns such a contained run verbatim;
(3) else returns the input unchanged.  It is a total function, so it
always returns a value and never signals an error. -/
theorem c3_parseUUID_amended (s : String) :
    ((∃ pre mid t, s.data = pre ++ (mid ++ t) ∧ SpecHyphenUuid mid) →
      ∃ mid, (∃ pre t, s.data = pre ++ (mid ++ t)) ∧ SpecHyphenUuid mid ∧
        (parseUUID s).data = removeFirstDash mid) ∧
    ((¬ ∃ pre mid t, s.data = pre ++ (mid ++ t) ∧ SpecHyphenUuid mid) →
      (∃ pre mid t, s.data = pre ++ (mid ++ t) ∧ Spec32Hex mid) →
      ∃ mid, (∃ pre t, s.data = pre ++ (mid ++ t)) ∧ Spec32Hex mid ∧
        (parseUUID s).data = mid) ∧
    ((¬ ∃ pre mid t, s.data = pre ++ (mid ++ t) ∧ SpecHyphenUuid mid) →
      (¬ ∃ pre mid t, s.data = pre ++ (mid ++ t) ∧ Spec32Hex mid) →
      parseUUID s = s) := by
  cases hf : findUuidMatch s.data with
  | some m =>
    obtain ⟨⟨pre, t, heq⟩, hspec⟩ := findUuidMatch_some hf
    refine ⟨?_, ?_, ?_⟩
    · intro _
      refine ⟨m, ⟨pre, t, heq⟩, hspec, ?_⟩
      rw [parseUUID, hf]
    · intro hn _
      exact absurd ⟨pre, m, t, heq, hspec⟩ hn
    · intro hn _
      exact absurd ⟨pre, m, t, heq, hspec⟩ hn
  | none =>
    have hnone := findUuidMatch_none hf
    cases h32 : find32Match s.data with
    | some m =>
      obtain ⟨⟨pre, t, heq⟩, hspec⟩ := find32Match_some h32
      refine ⟨?_, ?_, ?_⟩
      · intro hex
        exact absurd hex hnone
      · intro _ _
        refine ⟨m, ⟨pre, t, heq⟩, hspec, ?_⟩
        rw [parseUUID, hf, h32]
      · intro _ hn32
        exact absurd ⟨pre, m, t, heq, hspec⟩ hn32
    | none =>
      refine ⟨?_, ?_, ?_⟩
      · intro hex
        exact absurd hex hnone
      · intro _ hex
        exact absurd hex (find32Match_none h32)
      · intro _ _
        rw [parseUUID, hf, h32]

/-- Witness for C3's amended contract: one concrete string per branch. -/
theorem c3_witness :
    (∃ mid, (∃ pre t,
        ("x12345678-1234-1234-1234-123456789abc" : String).data =
          pre ++ (mid ++ t)) ∧ SpecHyphenUuid mid ∧
      (parseUUID "x12345678-1234-1234-1234-123456789abc").data =
        removeFirstDash mid) ∧
    (∃ mid, (∃ pre t,
        ("zz0123456789abcdef0123456789abcdef" : String).data =
          pre ++ (mid ++ t)) ∧ Spec32Hex mid ∧
      (parseUUID "zz0123456789abcdef0123456789abcdef").data = mid) ∧
    parseUUID "hello" = "hello" :=
  ⟨(c3_parseUUID_amended "x12345678-1234-1234-1234-123456789abc").1
    ⟨['x'], ("12345678-1234-1234-1234-123456789abc" : String).data, [],
      by decide,
      ("12345678" : String).data, ("1234" : String).data,
      ("1234" : String).data, ("1234" : String).data,
      ("123456789abc" : String).data,
      by decide, by decide, by decide, by decide, by decide,
      by decide, by decide, by decide, by decide, by decide, by decide⟩,
   (c3_parseUUID_amended "zz0123456789abcdef0123456789abcdef").2.1
    (findUuidMatch_none (by decide))
    ⟨['z', 'z'], ("0123456789abcdef0123456789abcdef" : String).data, [],
      by decide, by decide, by decide⟩,
   (c3_parseUUID_amended "hello").2.2
    (findUuidMatch_none (by decide))
    (find32Match_none (by decide))⟩

/-! ### C9 — amended host-strategy configuration -/

/-- A processed SRV answer always leaves `applySrv` of the staged
fragment in the staging table, whether or not it announces. -/
theorem stepAnswer_srv_staged {strategy rinfoAddr : String} {now : Nat}
    {name target : String} {s : ClientState} {dev : StagedDevice}
    (h : getKey s._devices (parseUUID name) = some dev) :
    getKey (stepAnswer strategy rinfoAddr now (.srv name target) s).1._devices
      (parseUUID name) = some (applySrv strategy rinfoAddr name target dev) := by
  rw [stepAnswer_srv_eq h]
  by_cases hg : announceGate (applySrv strategy rinfoAddr name target dev) = true
  · rw [if_pos hg, updateDevice_devices_eq, getKey_setKey_self]
  · rw [if_neg hg]
    exact getKey_setKey_self _ _ _

/-- C9 (amended): the recognized option is literally spelled
`mdns_host_stategy` (line 32) and defaults to `rinfo` when absent or
falsy; under value `srv` a processed SRV answer stages the SRV target as
host, and under `rinfo` (or absence) it stages the UDP responder's
source address. -/
theorem c9_strategy_amended (opts : List (String × String))
    (rinfoAddr name target : String) (now : Nat) (s : ClientState)
    (dev : StagedDevice)
    (h : getKey s._devices (parseUUID name) = some dev) :
    (getKey opts "mdns_host_stategy" = none →
      mdnsHostStrategyOf opts = "rinfo") ∧
    (getKey opts "mdns_host_stategy" = some "srv" →
      ∃ frag', getKey (stepAnswer (mdnsHostStrategyOf opts) rinfoAddr now
          (.srv name target) s).1._devices (parseUUID name) = some frag' ∧
        frag'.host = some target) ∧
    ((getKey opts "mdns_host_stategy" = none ∨
      getKey opts "mdns_host_stategy" = some "rinfo") →
      ∃ frag', getKey (stepAnswer (mdnsHostStrategyOf opts) rinfoAddr now
          (.srv name target) s).1._devices (parseUUID name) = some frag' ∧
        frag'.host = some rinfoAddr) := by
  refine ⟨?_, ?_, ?_⟩
  · intro hopt
    rw [mdnsHostStrategyOf, hopt]
  · intro hopt
    have hstrat : mdnsHostStrategyOf opts = "srv" := by
      rw [mdnsHostStrategyOf, hopt]
      simp
    refine ⟨_, stepAnswer_srv_staged h, ?_⟩
    rw [(applySrv_fields (mdnsHostStrategyOf opts) rinfoAddr name target dev).2.2.2.2.1]
    rw [hstrat]
    unfold srvHost
    rw [if_pos (by decide)]
  · intro hopt
    have hstrat : mdnsHostStrategyOf opts = "rinfo" := by
      rcases hopt with hopt | hopt
      · rw [mdnsHostStrategyOf, hopt]
      · rw [mdnsHostStrategyOf, hopt]
        simp
    refine ⟨_, stepAnswer_srv_staged h, ?_⟩
    rw [(applySrv_fields (mdnsHostStrategyOf opts) rinfoAddr name target dev).2.2.2.2.1]
    rw [hstrat]
    unfold srvHost
    rw [if_neg (by decide)]

/-- Witness for C9's amended contract: under the literally spelled
option set to `srv`, the SRV target becomes the staged host. -/
theorem c9_witness :
    ∃ frag', getKey (stepAnswer
        (mdnsHostStrategyOf [("mdns_host_stategy", "srv")]) "10.0.0.5" 50
        (.srv "devname1" "device.local") c9State).1._devices
      (parseUUID "devname1") = some frag' ∧
      frag'.host = some "device.local" :=
  (c9_strategy_amended [("mdns_host_stategy", "srv")] "10.0.0.5" "devname1"
    "device.local" 50 c9State c9Frag (by decide)).2.1 (by decide)

/-! ### Small algebra for C8 -/

theorem eqExceptLastSeen_iff {a b : Device} :
    eqExceptLastSeen a b = true ↔
      a.uuid = b.uuid ∧ a.name = b.name ∧ a.friendlyName = b.friendlyName ∧
      a.host = b.host ∧ a.manufacturer = b.manufacturer ∧
      a.modelName = b.modelName := by
  simp [eqExceptLastSeen, and_assoc]

theorem eqExceptLastSeen_refl (a : Device) : eqExceptLastSeen a a = true := by
  simp [eqExceptLastSeen_iff]

theorem eqExceptLastSeen_trans {a b c : Device}
    (h1 : eqExceptLastSeen a b = true) (h2 : eqExceptLastSeen b c = true) :
    eqExceptLastSeen a c = true := by
  rw [eqExceptLastSeen_iff] at h1 h2 ⊢
  obtain ⟨x1, x2, x3, x4, x5, x6⟩ := h1
  obtain ⟨y1, y2, y3, y4, y5, y6⟩ := h2
  exact ⟨x1.trans y1, x2.trans y2, x3.trans y3, x4.trans y4,
    x5.trans y5, x6.trans y6⟩

theorem forall2B_refl (R : Device → Device → Bool)
    (h : ∀ x, R x x = true) : ∀ l, forall2B R l l = true := by
  intro l
  induction l with
  | nil => rfl
  | cons a t ih => simp [forall2B, h a, ih]

theorem forall2B_trans (R : Device → Device → Bool)
    (htrans : ∀ a b c, R a b = true → R b c = true → R a c = true) :
    ∀ l1 l2 l3, forall2B R l1 l2 = true → forall2B R l2 l3 = true →
      forall2B R l1 l3 = true := by
  intro l1
  induction l1 with
  | nil =>
    intro l2 l3 h12 h23
    cases l2 with
    | nil => exact h23
    | cons b bs => simp [forall2B] at h12
  | cons a as ih =>
    intro l2 l3 h12 h23
    cases l2 with
    | nil => simp [forall2B] at h12
    | cons b bs =>
      cases l3 with
      | nil => simp [forall2B] at h23
      | cons c cs =>
        simp only [forall2B, Bool.and_eq_true] at h12 h23 ⊢
        exact ⟨htrans a b c h12.1 h23.1, ih bs cs h12.2 h23.2⟩

theorem forall2B_updateFirst (R : Device → Device → Bool)
    (hrefl : ∀ x, R x x = true) {p : Device → Bool} {f : Device → Device} :
    ∀ {l : List Device} {o : Device}, l.find? p = some o →
      R o (f o) = true → forall2B R l (updateFirst p f l) = true := by
  intro l
  induction l with
  | nil => intro o h; simp [List.find?] at h
  | cons a t ih =>
    intro o h hro
    by_cases hp : p a = true
    · rw [List.find?_cons_of_pos _ hp] at h
      injection h with h
      subst h
      simp only [updateFirst, hp, if_true, forall2B, Bool.and_eq_true]
      exact ⟨hro, forall2B_refl R hrefl t⟩
    · rw [List.find?_cons_of_neg _ (by simpa using hp)] at h
      simp only [updateFirst, hp, if_false, Bool.false_eq_true, forall2B,
        Bool.and_eq_true]
      exact ⟨hrefl a, ih h hro⟩

theorem noUpdated_append (a b : List Ev) :
    noUpdated (a ++ b) = (noUpdated a && noUpdated b) := by
  simp [noUpdated, List.all_append]

theorem find?_append_singleton {p : Device → Bool} {l : List Device}
    {x : Device} (hl : l.find? p = none) (hx : p x = true) :
    (l ++ [x]).find? p = some x := by
  induction l with
  | nil => simp [List.find?, hx]
  | cons a t ih =>
    by_cases hp : p a = true
    · rw [List.find?_cons_of_pos _ hp] at hl
      cases hl
    · rw [List.find?_cons_of_neg _ (by simpa using hp)] at hl
      rw [List.cons_append, List.find?_cons_of_neg _ (by simpa using hp)]
      exact ih hl

theorem find?_updateFirst_self {p : Device → Bool} {f : Device → Device} :
    ∀ {l : List Device} {o : Device}, l.find? p = some o →
      p (f o) = true → (updateFirst p f l).find? p = some (f o) := by
  intro l
  induction l with
  | nil => intro o h; simp [List.find?] at h
  | cons a t ih =>
    intro o h hpf
    by_cases hp : p a = true
    · rw [List.find?_cons_of_pos _ hp] at h
      injection h with h
      subst h
      simp only [updateFirst, hp, if_true]
      exact List.find?_cons_of_pos _ hpf
    · rw [List.find?_cons_of_neg _ (by simpa using hp)] at h
      simp only [updateFirst, hp, if_false, Bool.false_eq_true]
      rw [List.find?_cons_of_neg _ (by simpa using hp)]
      exact ih h hpf

theorem stagedDevice_ext {a b : StagedDevice} (h1 : a.uuid = b.uuid)
    (h2 : a.discoveryName = b.discoveryName)
    (h3 : a.friendlyName = b.friendlyName) (h4 : a.host = b.host)
    (h5 : a.manufacturer = b.manufacturer) (h6 : a.modelName = b.modelName) :
    a = b := by
  cases a
  cases b
  simp_all

/-! ### Absorption lemmas for the fragment updates -/

theorem absorbsPtr_applyPtr (n : String) (frag : StagedDevice) :
    absorbsPtr n (applyPtr n frag) := by
  intro hn
  rw [(applyPtr_fields n frag).2.2.2.2.2, if_pos hn]

theorem absorbsPtr_applySrv (strategy rinfoAddr target n : String)
    (frag : StagedDevice) :
    absorbsPtr n (applySrv strategy rinfoAddr n target frag) := by
  intro hn
  rw [(applySrv_fields strategy rinfoAddr n target frag).2.2.2.2.2, if_pos hn]

theorem absorbsPtr_applyTxt (tdata : List (String × String)) (n : String)
    (frag : StagedDevice) :
    absorbsPtr n (applyTxt n tdata frag) := by
  intro hn
  rw [(applyTxt_fields n tdata frag).2.2.2.1, if_pos hn]

theorem absorbsSrv_applySrv (strategy rinfoAddr target n : String)
    (frag : StagedDevice) :
    absorbsSrv strategy rinfoAddr target n (applySrv strategy rinfoAddr n target frag) :=
  ⟨(applySrv_fields strategy rinfoAddr n target frag).2.2.2.2.1,
   absorbsPtr_applySrv strategy rinfoAddr target n frag⟩

theorem absorbsSrv_applyPtr {strategy rinfoAddr target n : String}
    {frag : StagedDevice}
    (h : absorbsSrv strategy rinfoAddr target n frag) :
    absorbsSrv strategy rinfoAddr target n (applyPtr n frag) :=
  ⟨by rw [(applyPtr_fields n frag).2.2.1]; exact h.1,
   absorbsPtr_applyPtr n frag⟩

theorem absorbsSrv_applyTxt {strategy rinfoAddr target n : String}
    {tdata : List (String × String)} {frag : StagedDevice}
    (h : absorbsSrv strategy rinfoAddr target n frag) :
    absorbsSrv strategy rinfoAddr target n (applyTxt n tdata frag) :=
  ⟨by rw [(applyTxt_fields n tdata frag).2.1]; exact h.1,
   absorbsPtr_applyTxt tdata n frag⟩

theorem absorbsTxt_applyTxt (tdata : List (String × String)) (n : String)
    (frag : StagedDevice) :
    absorbsTxt tdata n (applyTxt n tdata frag) := by
  refine ⟨absorbsPtr_applyTxt tdata n frag, ?_, ?_⟩
  · intro ht
    rw [(applyTxt_fields n tdata frag).2.2.2.2.1, if_pos ht]
  · intro ht
    rw [(applyTxt_fields n tdata frag).2.2.2.2.2]
    by_cases hm : truthy frag.modelName = true
    · rw [if_neg (by simp [ht, hm])]
      exact hm
    · rw [if_pos (by simp [ht, hm])]
      exact ht

theorem absorbsTxt_applyPtr {tdata : List (String × String)} {n : String}
    {frag : StagedDevice} (h : absorbsTxt tdata n frag) :
    absorbsTxt tdata n (applyPtr n frag) := by
  refine ⟨absorbsPtr_applyPtr n frag, ?_, ?_⟩
  · intro ht
    rw [(applyPtr_fields n frag).2.1]
    exact h.2.1 ht
  · intro ht
    rw [(applyPtr_fields n frag).2.2.2.2.1]
    exact h.2.2 ht

theorem absorbsTxt_applySrv {strategy rinfoAddr target : String}
    {tdata : List (String × String)} {n : String} {frag : StagedDevice}
    (h : absorbsTxt tdata n frag) :
    absorbsTxt tdata n (applySrv strategy rinfoAddr n target frag) := by
  refine ⟨absorbsPtr_applySrv strategy rinfoAddr target n frag, ?_, ?_⟩
  · intro ht
    rw [(applySrv_fields strategy rinfoAddr n target frag).2.1]
    exact h.2.1 ht
  · intro ht
    rw [(applySrv_fields strategy rinfoAddr n target frag).2.2.2.1]
    exact h.2.2 ht

theorem applyPtr_absorbed {n : String} {frag : StagedDevice}
    (h : absorbsPtr n frag) : applyPtr n frag = frag := by
  apply stagedDevice_ext (applyPtr_fields n frag).1
    _ (applyPtr_fields n frag).2.1 (applyPtr_fields n frag).2.2.1
    (applyPtr_fields n frag).2.2.2.1 (applyPtr_fields n frag).2.2.2.2.1
  rw [(applyPtr_fields n frag).2.2.2.2.2]
  by_cases hn : n = ""
  · rw [if_neg (by simp [hn])]
  · rw [if_pos hn, h hn]

theorem applySrv_absorbed {strategy rinfoAddr target n : String}
    {frag : StagedDevice}
    (h : absorbsSrv strategy rinfoAddr target n frag) :
    applySrv strategy rinfoAddr n target frag = frag := by
  apply stagedDevice_ext (applySrv_fields strategy rinfoAddr n target frag).1
    _ (applySrv_fields strategy rinfoAddr n target frag).2.1
    _ (applySrv_fields strategy rinfoAddr n target frag).2.2.1
    (applySrv_fields strategy rinfoAddr n target frag).2.2.2.1
  · rw [(applySrv_fields strategy rinfoAddr n target frag).2.2.2.2.2]
    by_cases hn : n = ""
    · rw [if_neg (by simp [hn])]
    · rw [if_pos hn, h.2 hn]
  · rw [(applySrv_fields strategy rinfoAddr n target frag).2.2.2.2.1]
    exact h.1.symm

theorem applyTxt_absorbed {tdata : List (String × String)} {n : String}
    {frag : StagedDevice} (h : absorbsTxt tdata n frag) :
    applyTxt n tdata frag = frag := by
  apply stagedDevice_ext (applyTxt_fields n tdata frag).1
    _ _ (applyTxt_fields n tdata frag).2.1
    (applyTxt_fields n tdata frag).2.2.1 _
  · rw [(applyTxt_fields n tdata frag).2.2.2.1]
    by_cases hn : n = ""
    · rw [if_neg (by simp [hn])]
    · rw [if_pos hn, h.1 hn]
  · rw [(applyTxt_fields n tdata frag).2.2.2.2.1]
    by_cases ht : truthy (jsOrS (lastVal tdata "fn") (lastVal tdata "n")) = true
    · rw [if_pos ht, h.2.1 ht]
    · rw [if_neg ht]
  · rw [(applyTxt_fields n tdata frag).2.2.2.2.2]
    by_cases ht : truthy (lastVal tdata "d") = true
    · rw [if_neg (by simp [h.2.2 ht])]
    · rw [if_neg (by simp [ht])]

/-! ### Synchronization lemmas -/

/-- After any reconciliation whose staged fragment is `frag`, the found
(or pushed) public record agrees with `frag` on every compared field. -/
theorem updateDevice_establishes_sync {u : String} {now : Nat}
    {smid : ClientState} {frag : StagedDevice}
    (hkey : getKey smid._devices u = some frag) :
    getKey (_updateDevice u now smid).1._devices u = some frag ∧
    ∃ o, (_updateDevice u now smid).1.devices.find? (fun v => v.uuid == u) = some o ∧
      changedFields frag o = false := by
  refine ⟨by rw [updateDevice_devices_eq]; exact hkey, ?_⟩
  cases hfind : smid.devices.find? (fun v => v.uuid == u) with
  | none =>
    rw [updateDevice_eq_new hkey hfind]
    refine ⟨mkDevice u frag now, ?_, ?_⟩
    · exact find?_append_singleton hfind (by simp [mkDevice])
    · simp [changedFields_eq_false_iff, mkDevice]
  | some o =>
    have hp' := List.find?_some hfind
    have hp : (o.uuid == u) = true := hp'
    have hpm : ((mergeInto frag now o).uuid == u) = true := hp
    by_cases hch : changedFields frag o = true
    · rw [updateDevice_eq_changed hkey hfind hch]
      exact ⟨mergeInto frag now o, find?_updateFirst_self hfind hpm,
        changedFields_mergeInto frag now o⟩
    · rw [updateDevice_eq_unchanged hkey hfind (by simpa using hch)]
      exact ⟨mergeInto frag now o, find?_updateFirst_self hfind hpm,
        changedFields_mergeInto frag now o⟩

/-- The common tail of every processed mDNS answer: its staged fragment
ends up in the staging table and, whether or not it announces, the state
is synchronized for it. -/
theorem gateStep_staged_synced {u : String} {now : Nat} {s : ClientState}
    {dev' : StagedDevice} :
    getKey (if announceGate dev' = true then
        _updateDevice u now { s with _devices := setKey s._devices u dev' }
      else ({ s with _devices := setKey s._devices u dev' }, [])).1._devices u =
      some dev' ∧
    syncedAt (if announceGate dev' = true then
        _updateDevice u now { s with _devices := setKey s._devices u dev' }
      else ({ s with _devices := setKey s._devices u dev' }, [])).1 u dev' := by
  by_cases hg : announceGate dev' = true
  · rw [if_pos hg]
    have hkey : getKey ({ s with _devices := setKey s._devices u dev' } : ClientState)._devices u = some dev' :=
      getKey_setKey_self _ _ _
    obtain ⟨h1, h2⟩ := @updateDevice_establishes_sync u now _ dev' hkey
    exact ⟨h1, fun _ => h2⟩
  · rw [if_neg hg]
    exact ⟨getKey_setKey_self _ _ _, fun hgate => absurd hgate hg⟩

/-- Re-delivering a reconciliation to a synchronized state changes no
field but `lastSeen` and emits nothing; the state stays synchronized. -/
theorem secondDelivery_unchanged {u : String} {now2 : Nat}
    {s1 : ClientState} {frag1 : StagedDevice}
    (hst : getKey s1._devices u = some frag1)
    (hsync : ∃ o, s1.devices.find? (fun v => v.uuid == u) = some o ∧
      changedFields frag1 o = false) :
    (_updateDevice u now2 s1).1._devices = s1._devices ∧
    forall2B eqExceptLastSeen s1.devices (_updateDevice u now2 s1).1.devices = true ∧
    noUpdated (_updateDevice u now2 s1).2 = true ∧
    ∃ o', (_updateDevice u now2 s1).1.devices.find? (fun v => v.uuid == u) = some o' ∧
      changedFields frag1 o' = false := by
  obtain ⟨o, hfind, hch⟩ := hsync
  have hp' := List.find?_some hfind
  have hp : (o.uuid == u) = true := hp'
  have hpm : ((mergeInto frag1 now2 o).uuid == u) = true := hp
  rw [updateDevice_eq_unchanged hst hfind hch]
  refine ⟨rfl, ?_, rfl, ?_⟩
  · apply forall2B_updateFirst eqExceptLastSeen eqExceptLastSeen_refl hfind
    rw [mergeInto_of_unchanged now2 hch]
    simp [eqExceptLastSeen_iff]
  · exact ⟨mergeInto frag1 now2 o, find?_updateFirst_self hfind hpm,
      changedFields_mergeInto frag1 now2 o⟩

/-- The common tail of a re-delivered processed mDNS answer whose writes
are already absorbed. -/
theorem gateStep_idem {u : String} {now2 : Nat} {t : ClientState}
    {frag1 : StagedDevice} (hst : getKey t._devices u = some frag1)
    (hsync : syncedAt t u frag1) :
    ((if announceGate frag1 = true then
        _updateDevice u now2 { t with _devices := setKey t._devices u frag1 }
      else ({ t with _devices := setKey t._devices u frag1 }, [])).1._devices =
      t._devices) ∧
    forall2B eqExceptLastSeen t.devices
      (if announceGate frag1 = true then
        _updateDevice u now2 { t with _devices := setKey t._devices u frag1 }
      else ({ t with _devices := setKey t._devices u frag1 }, [])).1.devices = true ∧
    noUpdated (if announceGate frag1 = true then
        _updateDevice u now2 { t with _devices := setKey t._devices u frag1 }
      else ({ t with _devices := setKey t._devices u frag1 }, [])).2 = true ∧
    syncedAt (if announceGate frag1 = true then
        _updateDevice u now2 { t with _devices := setKey t._devices u frag1 }
      else ({ t with _devices := setKey t._devices u frag1 }, [])).1 u frag1 := by
  have hmid : ({ t with _devices := setKey t._devices u frag1 } : ClientState) = t := by
    rw [setKey_of_getKey hst]
  rw [hmid]
  by_cases hg : announceGate frag1 = true
  · rw [if_pos hg]
    obtain ⟨h1, h2, h3, h4⟩ := secondDelivery_unchanged hst (hsync hg)
    exact ⟨h1, h2, h3, fun _ => h4⟩
  · rw [if_neg hg]
    exact ⟨rfl, forall2B_refl _ eqExceptLastSeen_refl _, rfl, hsync⟩

/-! ### Single-answer lemmas for the two deliveries -/

theorem step1_ptr {strategy rinfoAddr : String} {now : Nat} {n : String}
    {s : ClientState} {frag : StagedDevice}
    (hst : getKey s._devices (parseUUID n) = some frag) :
    getKey (stepAnswer strategy rinfoAddr now (.ptr "_googlecast._tcp.local" n) s).1._devices (parseUUID n) =
      some (applyPtr n frag) ∧
    syncedAt (stepAnswer strategy rinfoAddr now (.ptr "_googlecast._tcp.local" n) s).1
      (parseUUID n) (applyPtr n frag) := by
  rw [stepAnswer_ptr_existing hst]
  exact gateStep_staged_synced

theorem step1_srv {strategy rinfoAddr : String} {now : Nat}
    {n target : String} {s : ClientState} {frag : StagedDevice}
    (hst : getKey s._devices (parseUUID n) = some frag) :
    getKey (stepAnswer strategy rinfoAddr now (.srv n target) s).1._devices (parseUUID n) =
      some (applySrv strategy rinfoAddr n target frag) ∧
    syncedAt (stepAnswer strategy rinfoAddr now (.srv n target) s).1
      (parseUUID n) (applySrv strategy rinfoAddr n target frag) := by
  rw [stepAnswer_srv_eq hst]
  exact gateStep_staged_synced

theorem step1_txt {strategy rinfoAddr : String} {now : Nat} {n : String}
    {tdata : List (String × String)} {s : ClientState} {frag : StagedDevice}
    (hst : getKey s._devices (parseUUID n) = some frag) :
    getKey (stepAnswer strategy rinfoAddr now (.txt n tdata) s).1._devices (parseUUID n) =
      some (applyTxt n tdata frag) ∧
    syncedAt (stepAnswer strategy rinfoAddr now (.txt n tdata) s).1
      (parseUUID n) (applyTxt n tdata frag) := by
  rw [stepAnswer_txt_eq hst]
  exact gateStep_staged_synced

theorem step2_ptr {strategy rinfoAddr : String} {now2 : Nat} {n : String}
    {t : ClientState} {frag1 : StagedDevice}
    (hst : getKey t._devices (parseUUID n) = some frag1)
    (habs : absorbsPtr n frag1)
    (hsync : syncedAt t (parseUUID n) frag1) :
    (stepAnswer strategy rinfoAddr now2 (.ptr "_googlecast._tcp.local" n) t).1._devices = t._devices ∧
    forall2B eqExceptLastSeen t.devices
      (stepAnswer strategy rinfoAddr now2 (.ptr "_googlecast._tcp.local" n) t).1.devices = true ∧
    noUpdated (stepAnswer strategy rinfoAddr now2 (.ptr "_googlecast._tcp.local" n) t).2 = true ∧
    syncedAt (stepAnswer strategy rinfoAddr now2 (.ptr "_googlecast._tcp.local" n) t).1
      (parseUUID n) frag1 := by
  rw [stepAnswer_ptr_existing hst, applyPtr_absorbed habs]
  exact gateStep_idem hst hsync

theorem step2_srv {strategy rinfoAddr : String} {now2 : Nat}
    {n target : String} {t : ClientState} {frag1 : StagedDevice}
    (hst : getKey t._devices (parseUUID n) = some frag1)
    (habs : absorbsSrv strategy rinfoAddr target n frag1)
    (hsync : syncedAt t (parseUUID n) frag1) :
    (stepAnswer strategy rinfoAddr now2 (.srv n target) t).1._devices = t._devices ∧
    forall2B eqExceptLastSeen t.devices
      (stepAnswer strategy rinfoAddr now2 (.srv n target) t).1.devices = true ∧
    noUpdated (stepAnswer strategy rinfoAddr now2 (.srv n target) t).2 = true ∧
    syncedAt (stepAnswer strategy rinfoAddr now2 (.srv n target) t).1
      (parseUUID n) frag1 := by
  rw [stepAnswer_srv_eq hst, applySrv_absorbed habs]
  exact gateStep_idem hst hsync

theorem step2_txt {strategy rinfoAddr : String} {now2 : Nat} {n : String}
    {tdata : List (String × String)} {t : ClientState} {frag1 : StagedDevice}
    (hst : getKey t._devices (parseUUID n) = some frag1)
    (habs : absorbsTxt tdata n frag1)
    (hsync : syncedAt t (parseUUID n) frag1) :
    (stepAnswer strategy rinfoAddr now2 (.txt n tdata) t).1._devices = t._devices ∧
    forall2B eqExceptLastSeen t.devices
      (stepAnswer strategy rinfoAddr now2 (.txt n tdata) t).1.devices = true ∧
    noUpdated (stepAnswer strategy rinfoAddr now2 (.txt n tdata) t).2 = true ∧
    syncedAt (stepAnswer strategy rinfoAddr now2 (.txt n tdata) t).1
      (parseUUID n) frag1 := by
  rw [stepAnswer_txt_eq hst, applyTxt_absorbed habs]
  exact gateStep_idem hst hsync

theorem runAnswers_cons (strategy rinfoAddr : String) (now : Nat)
    (a : Answer) (rest : List Answer) (s : ClientState) :
    runAnswers strategy rinfoAddr now (a :: rest) s =
      ((runAnswers strategy rinfoAddr now rest (stepAnswer strategy rinfoAddr now a s).1).1,
       (stepAnswer strategy rinfoAddr now a s).2 ++
         (runAnswers strategy rinfoAddr now rest (stepAnswer strategy rinfoAddr now a s).1).2) :=
  rfl

/-! ### First delivery of a coherent response -/

theorem runAnswers_pass1 (strategy rinfoAddr n target : String)
    (tdata : List (String × String)) (now : Nat) :
    ∀ (as : List Answer) (s : ClientState) (frag : StagedDevice),
      coherentB n target tdata as = true →
      getKey s._devices (parseUUID n) = some frag →
      ∃ frag1,
        getKey (runAnswers strategy rinfoAddr now as s).1._devices (parseUUID n) = some frag1 ∧
        (absorbsPtr n frag → absorbsPtr n frag1) ∧
        (absorbsSrv strategy rinfoAddr target n frag →
          absorbsSrv strategy rinfoAddr target n frag1) ∧
        (absorbsTxt tdata n frag → absorbsTxt tdata n frag1) ∧
        (∀ a ∈ as, processedB a = true →
          absorbsFor strategy rinfoAddr target tdata n a frag1) ∧
        (hasProcessedB as = true →
          syncedAt (runAnswers strategy rinfoAddr now as s).1 (parseUUID n) frag1) ∧
        (hasProcessedB as = false →
          (runAnswers strategy rinfoAddr now as s).1 = s ∧ frag1 = frag) := by
  intro as
  induction as with
  | nil =>
    intro s frag _ hst
    refine ⟨frag, hst, id, id, id, ?_, ?_, fun _ => ⟨rfl, rfl⟩⟩
    · intro a ha
      exact absurd ha (List.not_mem_nil a)
    · intro h
      simp [hasProcessedB] at h
  | cons a rest ih =>
    intro s frag hcoh hst
    have hcoh' : coherentAB n target tdata a = true ∧
        coherentB n target tdata rest = true := by
      simpa [coherentB, List.all_cons] using hcoh
    rw [runAnswers_cons]
    cases a with
    | ptr nm data =>
      by_cases hnm : nm = "_googlecast._tcp.local"
      · subst hnm
        have hdata : data = n := by simpa [coherentAB] using hcoh'.1
        subst hdata
        obtain ⟨hget', hsync'⟩ := @step1_ptr strategy rinfoAddr now data s frag hst
        obtain ⟨frag1, h1, h2, h3, h4, h5, h6, h7⟩ := ih _ _ hcoh'.2 hget'
        refine ⟨frag1, h1, ?_, ?_, ?_, ?_, ?_, ?_⟩
        · intro _
          exact h2 (absorbsPtr_applyPtr data frag)
        · intro h
          exact h3 (absorbsSrv_applyPtr h)
        · intro h
          exact h4 (absorbsTxt_applyPtr h)
        · intro b hb hpb
          rcases List.mem_cons.mp hb with rfl | hb
          · exact h2 (absorbsPtr_applyPtr data frag)
          · exact h5 b hb hpb
        · intro _
          by_cases hr : hasProcessedB rest = true
          · exact h6 hr
          · have hr' : hasProcessedB rest = false := by
              revert hr; cases hasProcessedB rest <;> simp
            obtain ⟨he, hf⟩ := h7 hr'
            rw [he, hf]
            exact hsync'
        · intro h
          simp [hasProcessedB, List.any_cons, processedB] at h
      · rw [stepAnswer_ptr_skip hnm]
        obtain ⟨frag1, h1, h2, h3, h4, h5, h6, h7⟩ := ih _ _ hcoh'.2 hst
        refine ⟨frag1, h1, h2, h3, h4, ?_, ?_, ?_⟩
        · intro b hb hpb
          rcases List.mem_cons.mp hb with rfl | hb
          · simp [processedB, hnm] at hpb
          · exact h5 b hb hpb
        · intro h
          have hr : hasProcessedB rest = true := by
            simpa [hasProcessedB, List.any_cons, processedB, hnm] using h
          exact h6 hr
        · intro h
          have hr : hasProcessedB rest = false := by
            simpa [hasProcessedB, List.any_cons, processedB, hnm] using h
          exact h7 hr
    | srv nm tg =>
      have hc : nm = n ∧ tg = target := by simpa [coherentAB] using hcoh'.1
      obtain ⟨rfl, rfl⟩ := hc
      obtain ⟨hget', hsync'⟩ := @step1_srv strategy rinfoAddr now nm tg s frag hst
      obtain ⟨frag1, h1, h2, h3, h4, h5, h6, h7⟩ := ih _ _ hcoh'.2 hget'
      refine ⟨frag1, h1, ?_, ?_, ?_, ?_, ?_, ?_⟩
      · intro _
        exact h2 (absorbsPtr_applySrv strategy rinfoAddr tg nm frag)
      · intro _
        exact h3 (absorbsSrv_applySrv strategy rinfoAddr tg nm frag)
      · intro h
        exact h4 (absorbsTxt_applySrv h)
      · intro b hb hpb
        rcases List.mem_cons.mp hb with rfl | hb
        · exact h3 (absorbsSrv_applySrv strategy rinfoAddr tg nm frag)
        · exact h5 b hb hpb
      · intro _
        by_cases hr : hasProcessedB rest = true
        · exact h6 hr
        · have hr' : hasProcessedB rest = false := by
            revert hr; cases hasProcessedB rest <;> simp
          obtain ⟨he, hf⟩ := h7 hr'
          rw [he, hf]
          exact hsync'
      · intro h
        simp [hasProcessedB, List.any_cons, processedB] at h
    | txt nm dt =>
      have hc : nm = n ∧ dt = tdata := by simpa [coherentAB] using hcoh'.1
      obtain ⟨rfl, rfl⟩ := hc
      obtain ⟨hget', hsync'⟩ := @step1_txt strategy rinfoAddr now nm dt s frag hst
      obtain ⟨frag1, h1, h2, h3, h4, h5, h6, h7⟩ := ih _ _ hcoh'.2 hget'
      refine ⟨frag1, h1, ?_, ?_, ?_, ?_, ?_, ?_⟩
      · intro _
        exact h2 (absorbsPtr_applyTxt dt nm frag)
      · intro h
        exact h3 (absorbsSrv_applyTxt h)
      · intro _
        exact h4 (absorbsTxt_applyTxt dt nm frag)
      · intro b hb hpb
        rcases List.mem_cons.mp hb with rfl | hb
        · exact h4 (absorbsTxt_applyTxt dt nm frag)
        · exact h5 b hb hpb
      · intro _
        by_cases hr : hasProcessedB rest = true
        · exact h6 hr
        · have hr' : hasProcessedB rest = false := by
            revert hr; cases hasProcessedB rest <;> simp
          obtain ⟨he, hf⟩ := h7 hr'
          rw [he, hf]
          exact hsync'
      · intro h
        simp [hasProcessedB, List.any_cons, processedB] at h

/-! ### Second delivery of a coherent response -/

theorem runAnswers_pass2 (strategy rinfoAddr n target : String)
    (tdata : List (String × String)) (now2 : Nat) :
    ∀ (as : List Answer) (t : ClientState) (frag1 : StagedDevice),
      coherentB n target tdata as = true →
      getKey t._devices (parseUUID n) = some frag1 →
      (∀ a ∈ as, processedB a = true →
        absorbsFor strategy rinfoAddr target tdata n a frag1) →
      (hasProcessedB as = true → syncedAt t (parseUUID n) frag1) →
      (runAnswers strategy rinfoAddr now2 as t).1._devices = t._devices ∧
      forall2B eqExceptLastSeen t.devices
        (runAnswers strategy rinfoAddr now2 as t).1.devices = true ∧
      noUpdated (runAnswers strategy rinfoAddr now2 as t).2 = true := by
  intro as
  induction as with
  | nil =>
    intro t frag1 _ _ _ _
    exact ⟨rfl, forall2B_refl _ eqExceptLastSeen_refl _, rfl⟩
  | cons a rest ih =>
    intro t frag1 hcoh hst habs hsync
    have hcoh' : coherentAB n target tdata a = true ∧
        coherentB n target tdata rest = true := by
      simpa [coherentB, List.all_cons] using hcoh
    rw [runAnswers_cons]
    cases a with
    | ptr nm data =>
      by_cases hnm : nm = "_googlecast._tcp.local"
      · subst hnm
        have hdata : data = n := by simpa [coherentAB] using hcoh'.1
        subst hdata
        have hsy : syncedAt t (parseUUID data) frag1 :=
          hsync (by simp [hasProcessedB, List.any_cons, processedB])
        have hab : absorbsPtr data frag1 :=
          habs _ (List.mem_cons_self _ _) (by simp [processedB])
        obtain ⟨e1, e2, e3, e4⟩ := @step2_ptr strategy rinfoAddr now2 data t frag1 hst hab hsy
        have hst' : getKey (stepAnswer strategy rinfoAddr now2
            (.ptr "_googlecast._tcp.local" data) t).1._devices (parseUUID data) = some frag1 := by
          rw [e1]; exact hst
        obtain ⟨f1, f2, f3⟩ := ih _ frag1 hcoh'.2 hst'
          (fun b hb hpb => habs b (List.mem_cons_of_mem _ hb) hpb)
          (fun _ => e4)
        refine ⟨?_, ?_, ?_⟩
        · rw [f1, e1]
        · exact forall2B_trans eqExceptLastSeen (fun _ _ _ p q => eqExceptLastSeen_trans p q)
            t.devices _ _ e2 f2
        · simp [noUpdated_append, e3, f3]
      · rw [stepAnswer_ptr_skip hnm]
        obtain ⟨f1, f2, f3⟩ := ih _ frag1 hcoh'.2 hst
          (fun b hb hpb => habs b (List.mem_cons_of_mem _ hb) hpb)
          (fun h => hsync (by
            simp only [hasProcessedB, List.any_cons, Bool.or_eq_true]
            exact Or.inr h))
        exact ⟨f1, f2, by simpa using f3⟩
    | srv nm tg =>
      have hc : nm = n ∧ tg = target := by simpa [coherentAB] using hcoh'.1
      obtain ⟨rfl, rfl⟩ := hc
      have hsy : syncedAt t (parseUUID nm) frag1 :=
        hsync (by simp [hasProcessedB, List.any_cons, processedB])
      have hab : absorbsSrv strategy rinfoAddr tg nm frag1 :=
        habs _ (List.mem_cons_self _ _) (by simp [processedB])
      obtain ⟨e1, e2, e3, e4⟩ := @step2_srv strategy rinfoAddr now2 nm tg t frag1 hst hab hsy
      have hst' : getKey (stepAnswer strategy rinfoAddr now2
          (.srv nm tg) t).1._devices (parseUUID nm) = some frag1 := by
        rw [e1]; exact hst
      obtain ⟨f1, f2, f3⟩ := ih _ frag1 hcoh'.2 hst'
        (fun b hb hpb => habs b (List.mem_cons_of_mem _ hb) hpb)
        (fun _ => e4)
      refine ⟨?_, ?_, ?_⟩
      · rw [f1, e1]
      · exact forall2B_trans eqExceptLastSeen (fun _ _ _ p q => eqExceptLastSeen_trans p q)
          t.devices _ _ e2 f2
      · simp [noUpdated_append, e3, f3]
    | txt nm dt =>
      have hc : nm = n ∧ dt = tdata := by simpa [coherentAB] using hcoh'.1
      obtain ⟨rfl, rfl⟩ := hc
      have hsy : syncedAt t (parseUUID nm) frag1 :=
        hsync (by simp [hasProcessedB, List.any_cons, processedB])
      have hab : absorbsTxt dt nm frag1 :=
        habs _ (List.mem_cons_self _ _) (by simp [processedB])
      obtain ⟨e1, e2, e3, e4⟩ := @step2_txt strategy rinfoAddr now2 nm dt t frag1 hst hab hsy
      have hst' : getKey (stepAnswer strategy rinfoAddr now2
          (.txt nm dt) t).1._devices (parseUUID nm) = some frag1 := by
        rw [e1]; exact hst
      obtain ⟨f1, f2, f3⟩ := ih _ frag1 hcoh'.2 hst'
        (fun b hb hpb => habs b (List.mem_cons_of_mem _ hb) hpb)
        (fun _ => e4)
      refine ⟨?_, ?_, ?_⟩
      · rw [f1, e1]
      · exact forall2B_trans eqExceptLastSeen (fun _ _ _ p q => eqExceptLastSeen_trans p q)
          t.devices _ _ e2 f2
      · simp [noUpdated_append, e3, f3]

/-! ### SSDP merge idempotence -/

theorem applySsdpMerge_newFrag (udn addr : String) (d : SsdpDevice) :
    applySsdpMerge (synthDiscoveryName udn) addr d
      (ssdpNewFrag (synthDiscoveryName udn) addr d) =
      ssdpNewFrag (synthDiscoveryName udn) addr d := by
  have htr : truthy (some (synthDiscoveryName udn)) = true := by
    simp [truthy, synthDiscoveryName_ne_empty udn]
  refine stagedDevice_ext ?_ ?_ ?_ ?_ ?_ ?_
  · rw [(applySsdpMerge_fields _ _ _ _).1]
  · rw [(applySsdpMerge_fields _ _ _ _).2.1]
    simp [ssdpNewFrag, htr]
  · rw [(applySsdpMerge_fields _ _ _ _).2.2.1]
    simp [ssdpNewFrag]
  · rw [(applySsdpMerge_fields _ _ _ _).2.2.2.1]
    simp [ssdpNewFrag]
  · rw [(applySsdpMerge_fields _ _ _ _).2.2.2.2.1]
    simp [ssdpNewFrag]
  · rw [(applySsdpMerge_fields _ _ _ _).2.2.2.2.2]
    simp [ssdpNewFrag]

theorem applySsdpMerge_idem (dn addr : String) (d : SsdpDevice)
    (dev : StagedDevice) :
    applySsdpMerge dn addr d (applySsdpMerge dn addr d dev) =
      applySsdpMerge dn addr d dev := by
  refine stagedDevice_ext ?_ ?_ ?_ ?_ ?_ ?_
  · rw [(applySsdpMerge_fields dn addr d (applySsdpMerge dn addr d dev)).1]
  · rw [(applySsdpMerge_fields dn addr d (applySsdpMerge dn addr d dev)).2.1,
      (applySsdpMerge_fields dn addr d dev).2.1]
    by_cases c1 : truthy (some dn) = true <;>
      by_cases c2 : truthy dev.discoveryName = true <;>
      simp [c1, c2]
  · rw [(applySsdpMerge_fields dn addr d (applySsdpMerge dn addr d dev)).2.2.1,
      (applySsdpMerge_fields dn addr d dev).2.2.1]
    by_cases c : truthy d.friendlyName = true <;> simp [c]
  · rw [(applySsdpMerge_fields dn addr d (applySsdpMerge dn addr d dev)).2.2.2.1,
      (applySsdpMerge_fields dn addr d dev).2.2.2.1]
    by_cases c : addr = "" <;> simp [c]
  · rw [(applySsdpMerge_fields dn addr d (applySsdpMerge dn addr d dev)).2.2.2.2.1,
      (applySsdpMerge_fields dn addr d dev).2.2.2.2.1]
    by_cases c : truthy d.manufacturer = true <;> simp [c]
  · rw [(applySsdpMerge_fields dn addr d (applySsdpMerge dn addr d dev)).2.2.2.2.2,
      (applySsdpMerge_fields dn addr d dev).2.2.2.2.2]
    by_cases c : truthy d.modelName = true <;> simp [c]

/-- Re-delivering one SSDP response: after the second delivery the
staging table is unchanged, every record differs at most in `lastSeen`,
and no update event fires. -/
theorem stepSsdp_idem (sc : Nat) (loc : JsStr) (addr : String)
    (desc : Option SsdpDevice) (now1 now2 : Nat) (s : ClientState) :
    (stepSsdp sc loc addr desc now2 (stepSsdp sc loc addr desc now1 s).1).1._devices =
      (stepSsdp sc loc addr desc now1 s).1._devices ∧
    forall2B eqExceptLastSeen (stepSsdp sc loc addr desc now1 s).1.devices
      (stepSsdp sc loc addr desc now2 (stepSsdp sc loc addr desc now1 s).1).1.devices = true ∧
    noUpdated (stepSsdp sc loc addr desc now2 (stepSsdp sc loc addr desc now1 s).1).2 = true := by
  by_cases hsc : sc = 200
  · subst hsc
    by_cases hloc : truthy loc = true
    · cases desc with
      | none =>
        rw [stepSsdp_none_desc, stepSsdp_none_desc]
        exact ⟨rfl, forall2B_refl _ eqExceptLastSeen_refl _, rfl⟩
      | some d =>
        by_cases hdt : jsNeq d.deviceType (some SSDP_DEVICE_TYPE) = false
        · by_cases hfn : truthy d.friendlyName = true
          · cases hudn : d.UDN with
            | none =>
              rw [stepSsdp_noop_udn_none hudn, stepSsdp_noop_udn_none hudn]
              exact ⟨rfl, forall2B_refl _ eqExceptLastSeen_refl _, rfl⟩
            | some udn =>
              by_cases hu : udn = ""
              · subst hu
                rw [stepSsdp_noop_udn_empty hudn, stepSsdp_noop_udn_empty hudn]
                exact ⟨rfl, forall2B_refl _ eqExceptLastSeen_refl _, rfl⟩
              · cases hk : getKey s._devices (parseUUID (stripUdn udn)) with
                | none =>
                  have e1 := @stepSsdp_new_eq 200 loc addr d udn now1 s rfl hloc hdt hfn hudn hu hk
                  rw [e1]
                  obtain ⟨hg1, hsync1⟩ := @updateDevice_establishes_sync
                    (parseUUID (stripUdn udn)) now1
                    ⟨setKey s._devices (parseUUID (stripUdn udn)) (ssdpNewFrag (synthDiscoveryName udn) addr d), s.devices⟩
                    (ssdpNewFrag (synthDiscoveryName udn) addr d)
                    (getKey_setKey_self _ _ _)
                  have e2 := @stepSsdp_merge_eq 200 loc addr d udn now2 _ _ rfl hloc hdt hfn hudn hu hg1
                  rw [e2, applySsdpMerge_newFrag, setKey_of_getKey hg1]
                  obtain ⟨d1, d2, d3, -⟩ := secondDelivery_unchanged hg1 hsync1
                  exact ⟨d1, d2, d3⟩
                | some dev =>
                  have e1 := @stepSsdp_merge_eq 200 loc addr d udn now1 s dev rfl hloc hdt hfn hudn hu hk
                  rw [e1]
                  obtain ⟨hg1, hsync1⟩ := @updateDevice_establishes_sync
                    (parseUUID (stripUdn udn)) now1
                    ⟨setKey s._devices (parseUUID (stripUdn udn)) (applySsdpMerge (synthDiscoveryName udn) addr d dev), s.devices⟩
                    (applySsdpMerge (synthDiscoveryName udn) addr d dev)
                    (getKey_setKey_self _ _ _)
                  have e2 := @stepSsdp_merge_eq 200 loc addr d udn now2 _ _ rfl hloc hdt hfn hudn hu hg1
                  rw [e2, applySsdpMerge_idem, setKey_of_getKey hg1]
                  obtain ⟨d1, d2, d3, -⟩ := secondDelivery_unchanged hg1 hsync1
                  exact ⟨d1, d2, d3⟩
          · have hnoop : ∀ (now : Nat) (s2 : ClientState),
                stepSsdp 200 loc addr (some d) now s2 = (s2, []) := by
              intro now s2
              refine stepSsdp_noop_gate2 ?_
              simp [hfn]
            rw [hnoop, hnoop]
            exact ⟨rfl, forall2B_refl _ eqExceptLastSeen_refl _, rfl⟩
        · have hnoop : ∀ (now : Nat) (s2 : ClientState),
              stepSsdp 200 loc addr (some d) now s2 = (s2, []) := by
            intro now s2
            refine stepSsdp_noop_gate2 ?_
            simp only [Bool.or_eq_true]
            exact Or.inl (by simpa using hdt)
          rw [hnoop, hnoop]
          exact ⟨rfl, forall2B_refl _ eqExceptLastSeen_refl _, rfl⟩
    · have hnoop : ∀ (now : Nat) (s2 : ClientState),
          stepSsdp 200 loc addr desc now s2 = (s2, []) := by
        intro now s2
        exact stepSsdp_noop_status (by simp [hloc])
      rw [hnoop, hnoop]
      exact ⟨rfl, forall2B_refl _ eqExceptLastSeen_refl _, rfl⟩
  · have hnoop : ∀ (now : Nat) (s2 : ClientState),
        stepSsdp sc loc addr desc now s2 = (s2, []) := by
      intro now s2
      exact stepSsdp_noop_status (by simp [bne_iff_ne, hsc])
    rw [hnoop, hnoop]
    exact ⟨rfl, forall2B_refl _ eqExceptLastSeen_refl _, rfl⟩

/-- C8 — Idempotence of re-delivery. Left conjunct (mDNS): for any
self-consistent PTR/SRV/TXT answer list for one service instance with a
staged fragment present, delivering the list once and then delivering the
identical list again leaves the staging table exactly as after the first
delivery, leaves every public Device Record equal to its value after the
first delivery on every field except `lastSeen` (`eqExceptLastSeen`,
pointwise via `forall2B`), and the second delivery emits no
`device_updated` event. Right conjunct (SSDP): processing one SSDP
response twice in a row, for any status code, LOCATION header, responder
address and description document, likewise leaves the staging table
unchanged, changes public records at most in `lastSeen`, and emits no
`device_updated` event on the second processing. -/
theorem c8_idempotent_redelivery
    (strategy rinfoAddr n target : String) (tdata : List (String × String))
    ( as : List Answer) (now1 now2 : Nat) (s : ClientState)
    (frag : StagedDevice)
    (hcoh : coherentB n target tdata as = true)
    (hst : getKey s._devices (parseUUID n) = some frag)
    (sc : Nat) (loc : JsStr) (addr : String) (desc : Option SsdpDevice)
    (t : ClientState) :
    ((runAnswers strategy rinfoAddr now2 as (runAnswers strategy rinfoAddr now1 as s).1).1._devices =
        (runAnswers strategy rinfoAddr now1 as s).1._devices ∧
      forall2B eqExceptLastSeen (runAnswers strategy rinfoAddr now1 as s).1.devices
        (runAnswers strategy rinfoAddr now2 as (runAnswers strategy rinfoAddr now1 as s).1).1.devices = true ∧
      noUpdated (runAnswers strategy rinfoAddr now2 as (runAnswers strategy rinfoAddr now1 as s).1).2 = true) ∧
    ((stepSsdp sc loc addr desc now2 (stepSsdp sc loc addr desc now1 t).1).1._devices =
        (stepSsdp sc loc addr desc now1 t).1._devices ∧
      forall2B eqExceptLastSeen (stepSsdp sc loc addr desc now1 t).1.devices
        (stepSsdp sc loc addr desc now2 (stepSsdp sc loc addr desc now1 t).1).1.devices = true ∧
      noUpdated (stepSsdp sc loc addr desc now2 (stepSsdp sc loc addr desc now1 t).1).2 = true) := by
  constructor
  · obtain ⟨frag1, hg1, -, -, -, habs, hsync, -⟩ :=
      runAnswers_pass1 strategy rinfoAddr n target tdata now1 as s frag hcoh hst
    exact runAnswers_pass2 strategy rinfoAddr n target tdata now2 as _ frag1
      hcoh hg1 habs hsync
  · exact stepSsdp_idem sc loc addr desc now1 now2 t

/-- Concrete instance of C8: the sample coherent response delivered twice
from `c8S`, and the sample SSDP response processed twice, with both
hypotheses checked by evaluation. -/
theorem c8_witness :
    coherentB c8N c8Target c8Tdata c8As = true ∧
    getKey c8S._devices (parseUUID c8N) = some c8Frag ∧
    (((runAnswers "rinfo" "10.0.0.9" 9 c8As (runAnswers "rinfo" "10.0.0.9" 5 c8As c8S).1).1._devices =
        (runAnswers "rinfo" "10.0.0.9" 5 c8As c8S).1._devices ∧
      forall2B eqExceptLastSeen (runAnswers "rinfo" "10.0.0.9" 5 c8As c8S).1.devices
        (runAnswers "rinfo" "10.0.0.9" 9 c8As (runAnswers "rinfo" "10.0.0.9" 5 c8As c8S).1).1.devices = true ∧
      noUpdated (runAnswers "rinfo" "10.0.0.9" 9 c8As (runAnswers "rinfo" "10.0.0.9" 5 c8As c8S).1).2 = true) ∧
    ((stepSsdp 200 (some "http://10.0.0.9/dd.xml") "10.0.0.9" (some c8Desc) 9 (stepSsdp 200 (some "http://10.0.0.9/dd.xml") "10.0.0.9" (some c8Desc) 5 c8S).1).1._devices =
        (stepSsdp 200 (some "http://10.0.0.9/dd.xml") "10.0.0.9" (some c8Desc) 5 c8S).1._devices ∧
      forall2B eqExceptLastSeen (stepSsdp 200 (some "http://10.0.0.9/dd.xml") "10.0.0.9" (some c8Desc) 5 c8S).1.devices
        (stepSsdp 200 (some "http://10.0.0.9/dd.xml") "10.0.0.9" (some c8Desc) 9 (stepSsdp 200 (some "http://10.0.0.9/dd.xml") "10.0.0.9" (some c8Desc) 5 c8S).1).1.devices = true ∧
      noUpdated (stepSsdp 200 (some "http://10.0.0.9/dd.xml") "10.0.0.9" (some c8Desc) 9 (stepSsdp 200 (some "http://10.0.0.9/dd.xml") "10.0.0.9" (some c8Desc) 5 c8S).1).2 = true)) :=
  ⟨by decide, by decide,
    c8_idempotent_redelivery "rinfo" "10.0.0.9" c8N c8Target c8Tdata c8As 5 9
      c8S c8Frag (by decide) (by decide) 200 (some "http://10.0.0.9/dd.xml")
      "10.0.0.9" (some c8Desc) c8S⟩

end Chromecast
